import Mathlib

/-!
Verification of the SixCells level generator (`generator.py`).

The Python source is shallowly embedded below.  Machine integers are
modelled as `Int` (Python ints are unbounded); Python floor division
`//` is `Int.fdiv` and Python `%` (with a positive modulus) is
`Int.emod`.  Randomness (`random.random()`, `random.sample`,
`random.choice`, `random.shuffle`, `random.randint`) is threaded in as
explicit choice functions so every definition is a pure function of the
level and the drawn choices.  The `solver` module is not part of this
repository; per the spec the solvability check builds a fresh solver
state from the serialized level text, so it is modelled as an oracle on
that text (see `is_solvable`).
-/

set_option maxRecDepth 10000

namespace Sixcells

/-- Line-hint direction characters from `generator.py`: the three
direction symbols `'\\'`, `'|'`, `'/'`. -/
inductive Dir where
  | downRight  -- the character \ , delta (1, 1)
  | down       -- the character | , delta (0, 2)
  | downLeft   -- the character / , delta (-1, 1)
deriving DecidableEq, Repr

/-- The `direction_deltas` table: `(dx, dy)` for moving in a column
hint's direction. -/
def Dir.delta : Dir → ℤ × ℤ
  | .downRight => (1, 1)
  | .down => (0, 2)
  | .downLeft => (-1, 1)

/-- The direction symbol as written in the level format. -/
def Dir.toChar : Dir → Char
  | .downRight => '\\'
  | .down => '|'
  | .downLeft => '/'

/-- `HexCell.__init__`: a single hexagonal cell of the generator.
`info_type` is one of `'.'`, `'+'`, `'c'`, `'n'` whenever the cell was
produced by the generator. -/
structure HexCell where
  x : ℤ
  y : ℤ
  is_blue : Bool
  revealed : Bool
  info_type : Char
deriving DecidableEq, Repr

/-- `HexCell.to_string`: convert to the 2-character level format. -/
def HexCell.to_string (c : HexCell) : String :=
  let cell_char :=
    if c.is_blue then (if c.revealed then 'X' else 'x')
    else (if c.revealed then 'O' else 'o')
  String.mk [cell_char, c.info_type]

/-- `ColumnHint.__init__`: a column/line hint.  `consecutive` is
`none`, `'c'` or `'n'`. -/
structure ColumnHint where
  x : ℤ
  y : ℤ
  direction : Dir
  consecutive : Option Char
deriving DecidableEq, Repr

/-- `ColumnHint.to_string`: convert to the 2-character level format. -/
def ColumnHint.to_string (h : ColumnHint) : String :=
  let info : Char :=
    if h.consecutive = some 'c' then 'c'
    else if h.consecutive = some 'n' then 'n'
    else '+'
  String.mk [h.direction.toChar, info]

/-- A grid slot holds a cell or a column hint (`None` slots are modelled
by `Option Entity` in the grid function). -/
inductive Entity where
  | cell (c : HexCell)
  | hint (h : ColumnHint)
deriving DecidableEq, Repr

/-- The 33x33 grid of `GeneratedLevel.__init__`: a list of rows, each a
list of slots, exactly as in Python (`self.grid[y][x]`). -/
abbrev Grid : Type := List (List (Option Entity))

/-- Read the grid slot `self.grid[y][x]`.  The source always guards
`0 <= x < 33 and 0 <= y < 33` before indexing, so out-of-range reads
(which Python would wrap or fault on) are modelled as empty. -/
def gridGet (g : Grid) (y x : ℤ) : Option Entity :=
  if 0 ≤ y ∧ 0 ≤ x then (g.get? y.toNat).bind fun row => (row.get? x.toNat).join
  else none

/-- Write the grid slot `self.grid[y][x] = v` (no-op out of range, as
reads are; the source never writes out of range). -/
def gridSet (g : Grid) (y x : ℤ) (v : Option Entity) : Grid :=
  if 0 ≤ y ∧ 0 ≤ x then
    match g.get? y.toNat with
    | some row => g.set y.toNat (row.set x.toNat v)
    | none => g
  else g

/-- The all-empty grid `[[None for _ in range(33)] for _ in range(33)]`. -/
def emptyGrid : Grid := List.replicate 33 (List.replicate 33 none)

/-- `GeneratedLevel`: grid, hint list and metadata.  The hint list holds
`Option ColumnHint` because `minimize_clues` stores `None` in removed
slots; before minimization every entry is `some`. -/
structure GeneratedLevel where
  grid : Grid
  column_hints : List (Option ColumnHint)
  title : String
  author : String

/-- Fresh level from `GeneratedLevel.__init__`. -/
def GeneratedLevel.init : GeneratedLevel :=
  { grid := emptyGrid
    column_hints := []
    title := "Generated Level"
    author := "Generator" }

/-- The `_neighbors_deltas` offset table used by `get_neighbors`. -/
def neighborOffsets : List (ℤ × ℤ) :=
  [(0, -2), (1, -1), (1, 1), (0, 2), (-1, 1), (-1, -1)]

/-- Bounds test `0 <= v < 33` used throughout the generator. -/
def inBounds (v : ℤ) : Prop := 0 ≤ v ∧ v < 33

instance (v : ℤ) : Decidable (inBounds v) := by
  unfold inBounds; infer_instance

/-- `GeneratedLevel.get_neighbors`: the up-to-six in-bounds hexagonal
neighbors of `(x, y)`, in offset-table order. -/
def get_neighbors (x y : ℤ) : List (ℤ × ℤ) :=
  neighborOffsets.filterMap fun d =>
    if inBounds (x + d.1) ∧ inBounds (y + d.2) then some (x + d.1, y + d.2)
    else none

/-- `GeneratedLevel.are_neighbors`: membership in the neighbor list. -/
def are_neighbors (p q : ℤ × ℤ) : Prop := q ∈ get_neighbors p.1 p.2

instance (p q : ℤ × ℤ) : Decidable (are_neighbors p q) := by
  unfold are_neighbors; infer_instance

/-- One worklist pass of `GeneratedLevel.all_grouped`: walk the
candidate positions in order and add every one adjacent to an
already-grouped position (additions are visible later in the same
pass, as in the Python loop body). -/
def groupPass (positions grouped : List (ℤ × ℤ)) : List (ℤ × ℤ) :=
  positions.foldl
    (fun acc p =>
      if p ∉ acc ∧ acc.any (fun q => decide (are_neighbors p q)) then acc ++ [p]
      else acc)
    grouped

/-- The `while anything_to_add` loop of `all_grouped`, run with enough
fuel to reach the fixed point (each productive pass adds at least one
position, so `positions.length` passes always suffice). -/
def groupClosure (positions : List (ℤ × ℤ)) : List (ℤ × ℤ) → ℕ → List (ℤ × ℤ)
  | grouped, 0 => grouped
  | grouped, fuel + 1 =>
    if groupPass positions grouped = grouped then grouped
    else groupClosure positions (groupPass positions grouped) fuel

/-- `GeneratedLevel.all_grouped`: do all positions form one connected
group?  Computed as in the source: grow a group from the first
position by the worklist closure and compare sizes.  `positions` plays
the role of the Python set (the callers below always pass a
duplicate-free list). -/
def all_grouped (positions : List (ℤ × ℤ)) : Bool :=
  match positions with
  | [] => true
  | p :: _ => (groupClosure positions [p] positions.length).length = positions.length

/-- The while-loop body of `GeneratedLevel.get_line_cells`, with fuel.
Each iteration advances `cy` by at least one, so fuel 34 always reaches
the boundary from any in-bounds start. -/
def lineCellsAux (g : Grid) (dx dy : ℤ) : ℤ → ℤ → ℕ → List (ℤ × ℤ)
  | _, _, 0 => []
  | cx, cy, fuel + 1 =>
    if inBounds cx ∧ inBounds cy then
      if gridGet g cy cx ≠ none then (cx, cy) :: lineCellsAux g dx dy (cx + dx) (cy + dy) fuel
      else lineCellsAux g dx dy (cx + dx) (cy + dy) fuel
    else []

/-- `GeneratedLevel.get_line_cells`: positions of all non-`None` grid
slots (cells and hints) along the line from `(x, y)` in `direction`. -/
def get_line_cells (g : Grid) (x y : ℤ) (direction : Dir) : List (ℤ × ℤ) :=
  lineCellsAux g direction.delta.1 direction.delta.2 x y 34

/-- Is the grid slot at `(x, y)` a `HexCell`? -/
def isCellAt (g : Grid) (x y : ℤ) : Prop := ∃ c, gridGet g y x = some (.cell c)

instance (g : Grid) (x y : ℤ) : Decidable (isCellAt g x y) := by
  unfold isCellAt
  match gridGet g y x with
  | none => exact .isFalse (by simp)
  | some (.cell c) => exact .isTrue ⟨c, rfl⟩
  | some (.hint h) => exact .isFalse (by simp)

/-- `GeneratedLevel.get_hex_cells_in_line`: only the `HexCell`
positions in the line (filters out `ColumnHint`s). -/
def get_hex_cells_in_line (g : Grid) (x y : ℤ) (direction : Dir) : List (ℤ × ℤ) :=
  (get_line_cells g x y direction).filter fun p => decide (isCellAt g p.1 p.2)

/-- The 33x33 row-major coordinate list `(y, x)` traversed by the
`for y in range(33): for x in range(33)` loops. -/
def coords33 : List (ℤ × ℤ) :=
  (List.range 33).flatMap fun y =>
    (List.range 33).map fun x => (Int.ofNat y, Int.ofNat x)

/-- The two-character token one grid slot contributes to its row in
`GeneratedLevel.to_level_string` (`".."` for an empty slot). -/
def tokenAt (g : Grid) (y x : ℤ) : String :=
  match gridGet g y x with
  | none => ".."
  | some (.cell c) => c.to_string
  | some (.hint h) => h.to_string

/-- One row of `GeneratedLevel.to_level_string` (the `row += ...` loop). -/
def rowString (g : Grid) (y : ℤ) : String :=
  String.join (((List.range 33).map fun x => tokenAt g y (Int.ofNat x)))

/-- The list of lines joined by `GeneratedLevel.to_level_string`:
header, title, author, two blank lines, then the 33 grid rows. -/
def levelLines (l : GeneratedLevel) : List String :=
  ["Hexcells level v1", l.title, l.author, "", ""] ++
    (List.range 33).map fun y => rowString l.grid (Int.ofNat y)

/-- `GeneratedLevel.to_level_string`: the serialized level text. -/
def to_level_string (l : GeneratedLevel) : String :=
  String.intercalate "\n" (levelLines l)

/-- The blue-neighbor set collected by
`GeneratedLevel.set_black_cell_info_types` for the cell at `(x, y)`
(as a duplicate-free list in neighbor-table order; the Python code
builds a set). -/
def blueNeighbors (g : Grid) (x y : ℤ) : List (ℤ × ℤ) :=
  (get_neighbors x y).filter fun p =>
    match gridGet g p.2 p.1 with
    | some (.cell c) => c.is_blue
    | _ => false

/-- Loop body of `GeneratedLevel.set_black_cell_info_types` at one
coordinate: skip non-cells, blue cells and cells with no clue;
otherwise classify the blue neighbors when there are more than one. -/
def setBlackStep (g : Grid) (p : ℤ × ℤ) : Grid :=
  match gridGet g p.1 p.2 with
  | some (.cell c) =>
    if c.is_blue ∨ c.info_type = '.' then g
    else if (blueNeighbors g p.2 p.1).length > 1 then
      gridSet g p.1 p.2 (some (.cell { c with
        info_type := if all_grouped (blueNeighbors g p.2 p.1) then 'c' else 'n' }))
    else g
  | _ => g

/-- `GeneratedLevel.set_black_cell_info_types`: set `'c'`/`'n'` info
types for black cells based on their blue neighbors, scanning the grid
row-major. -/
def set_black_cell_info_types (g : Grid) : Grid :=
  coords33.foldl setBlackStep g

/-- Is the grid slot at `(x, y)` a blue `HexCell`?  (The guard of the
`blue_cells` list comprehensions.) -/
def isBlueCellAt (g : Grid) (x y : ℤ) : Bool :=
  match gridGet g y x with
  | some (.cell c) => c.is_blue
  | _ => false

/-- The `blue_indices` list of `LevelGenerator.check_consecutive`:
indices into `line_cells` whose grid slot is a blue `HexCell`. -/
def blueIndices (g : Grid) (line_cells : List (ℤ × ℤ)) : List ℕ :=
  line_cells.enum.filterMap fun ip =>
    if isBlueCellAt g ip.2.1 ip.2.2 then some ip.1 else none

/-- The `is_consecutive` test: every index is one more than its
predecessor. -/
def consecRun : List ℕ → Bool
  | [] => true
  | [_] => true
  | a :: b :: rest => a + 1 = b && consecRun (b :: rest)

/-- `LevelGenerator.check_consecutive`: `'c'`/`'n'` when more than one
blue cell lies on the line, `none` otherwise. -/
def check_consecutive (g : Grid) (line_cells blue_cells : List (ℤ × ℤ)) : Option Char :=
  if blue_cells = [] then none
  else
    let bi := blueIndices g line_cells
    if bi = [] then none
    else if bi.length > 1 then some (if consecRun bi then 'c' else 'n')
    else none

/-- The `directions` table of `LevelGenerator.add_column_hints`:
`(dx, dy, direction)` for up+left, up two, up+right. -/
def hintDirections : List (ℤ × ℤ × Dir) :=
  [(-1, -1, .downRight), (0, -2, .down), (1, -1, .downLeft)]

/-- Inner loop of `add_column_hints` for the `HexCell` at `(x, y)`:
try to attach a hint in each of the three upward slots that is free. -/
def addHintsAround (l : GeneratedLevel) (x y : ℤ) : GeneratedLevel :=
  hintDirections.foldl
    (fun l' d =>
      let hx := x + d.1
      let hy := y + d.2.1
      if inBounds hx ∧ inBounds hy then
        if gridGet l'.grid hy hx = none then
          { grid := gridSet l'.grid hy hx (some (.hint ⟨hx, hy, d.2.2, none⟩))
            column_hints := l'.column_hints ++ [some ⟨hx, hy, d.2.2, none⟩]
            title := l'.title
            author := l'.author }
        else l'
      else l')
    l

/-- Loop body of `add_column_hints` at one coordinate: only `HexCell`
slots are eligible, and `random.random() < column_hint_chance` SKIPS
the cell (note the inverted sense in the source). -/
def addColumnHintsStep (skipH : ℤ → ℤ → Bool) (l : GeneratedLevel) (p : ℤ × ℤ) : GeneratedLevel :=
  match gridGet l.grid p.1 p.2 with
  | some (.cell _) => if skipH p.2 p.1 then l else addHintsAround l p.2 p.1
  | _ => l

/-- `LevelGenerator.add_column_hints`: scan the grid row-major and
attach hints above cells. -/
def add_column_hints (skipH : ℤ → ℤ → Bool) (l : GeneratedLevel) : GeneratedLevel :=
  coords33.foldl (addColumnHintsStep skipH) l

/-- One removal of `LevelGenerator.remove_random_column_hint`: clear
every non-empty slot along the chosen hint's line, clear the hint's own
slot, and drop the hint from the hint list. -/
def removeHintAndLine (l : GeneratedLevel) (h : ColumnHint) : GeneratedLevel :=
  { grid := gridSet ((get_line_cells l.grid h.x h.y h.direction).foldl
      (fun g p => gridSet g p.2 p.1 none) l.grid) h.y h.x none
    column_hints := l.column_hints.erase (some h)
    title := l.title
    author := l.author }

/-- The `for r in range(removenum)` loop of
`remove_random_column_hint`; `pick` supplies the index drawn by
`random.choice` (reduced mod the current length, which Python's
in-range draw never needs). -/
def removeLoop (pick : ℕ → ℕ) : ℕ → GeneratedLevel → GeneratedLevel
  | 0, l => l
  | r + 1, l =>
    if l.column_hints = [] then l
    else
      match l.column_hints.get? (pick r % l.column_hints.length) with
      | some (some h) => removeLoop pick r (removeHintAndLine l h)
      | _ => removeLoop pick r l

/-- `LevelGenerator.remove_random_column_hint`. -/
def remove_random_column_hint (pick : ℕ → ℕ) (removenum : ℕ) (l : GeneratedLevel) : GeneratedLevel :=
  if l.column_hints = [] then l else removeLoop pick removenum l

/-- State threaded through the `recheck_hints` loop: the grid, the hint
list (Python mutates the shared hint objects in place) and the
`hints_to_remove` accumulator. -/
structure RecheckState where
  grid : Grid
  hints : List (Option ColumnHint)
  toRemove : List ColumnHint

/-- The `for _ in range(3)` move loop of `recheck_hints`: nudge the
hint forward into empty space, deleting it on collision with another
hint and stopping on anything else.  Returns the updated grid, the
moved hint and whether it was removed. -/
def moveLoop (g : Grid) (h : ColumnHint) : ℕ → Grid × ColumnHint × Bool
  | 0 => (g, h, false)
  | fuel + 1 =>
    if inBounds (h.x + h.direction.delta.1) ∧ inBounds (h.y + h.direction.delta.2) then
      match gridGet g (h.y + h.direction.delta.2) (h.x + h.direction.delta.1) with
      | none =>
        moveLoop
          (gridSet (gridSet g h.y h.x none)
            (h.y + h.direction.delta.2) (h.x + h.direction.delta.1)
            (some (.hint { h with
              x := h.x + h.direction.delta.1, y := h.y + h.direction.delta.2 })))
          { h with x := h.x + h.direction.delta.1, y := h.y + h.direction.delta.2 }
          fuel
      | some (.hint _) => (gridSet g h.y h.x none, h, true)
      | some (.cell _) => (g, h, false)
    else (g, h, false)

/-- Loop body of `recheck_hints` for the hint at list index `i`.
A `none` entry is skipped (it cannot occur where `recheck_hints` is
called: minimization runs later). -/
def recheckStep (s : RecheckState) (i : ℕ) : RecheckState :=
  match s.hints.get? i with
  | some (some h) =>
    let hex := get_hex_cells_in_line s.grid h.x h.y h.direction
    if hex = [] then
      { grid := gridSet s.grid h.y h.x none
        hints := s.hints
        toRemove := s.toRemove ++ [h] }
    else
      match moveLoop s.grid h 3 with
      | (g', h', removed) =>
        let hints' := s.hints.set i (some h')
        if removed then
          { grid := g', hints := hints', toRemove := s.toRemove ++ [h'] }
        else
          let blue_cells := hex.filter fun p => isBlueCellAt g' p.1 p.2
          let h'' : ColumnHint :=
            { h' with consecutive :=
                if blue_cells.length ≤ 1 then none
                else check_consecutive g' hex blue_cells }
          { grid := g', hints := hints'.set i (some h''), toRemove := s.toRemove }
  | _ => s

/-- `LevelGenerator.recheck_hints`: process every hint in list order,
then remove the collected hints from the list (`list.remove` drops the
first occurrence). -/
def recheck_hints (l : GeneratedLevel) : GeneratedLevel :=
  { grid := ((List.range l.column_hints.length).foldl recheckStep
      ⟨l.grid, l.column_hints, []⟩).grid
    column_hints :=
      ((List.range l.column_hints.length).foldl recheckStep
        ⟨l.grid, l.column_hints, []⟩).toRemove.foldl
        (fun hs h => hs.erase (some h))
        ((List.range l.column_hints.length).foldl recheckStep
          ⟨l.grid, l.column_hints, []⟩).hints
    title := l.title
    author := l.author }

/-- A removable clue enumerated by `minimize_clues`: a column hint by
index, or a clued cell (`'flower'` when blue, `'blackcell'` otherwise)
by coordinates. -/
inductive Clue where
  | column (idx : ℕ)
  | flower (x y : ℤ)
  | blackcell (x y : ℤ)
deriving DecidableEq, Repr

/-- Configuration fields of `LevelGenerator.__init__` that the
embedding consumes directly.  The probability/weight parameters
(`blue_density`, `cell_spawn_chance`, `column_hint_chance`,
`blue_info_weight_*`) only feed individual `random` draws and are
absorbed into the drawn choices (`GenChoices`). -/
structure Params where
  width : ℕ
  height : ℕ
  constrain_by_radius : Bool
  min_columns_removed : ℕ
  max_columns_removed : ℕ
  reveal_density : ℕ
  clue_removal_ratio : ℚ

/-- The pseudorandom draws one `create_pattern`/`minimize_clues` run
consumes, threaded in explicitly. -/
structure GenChoices where
  /-- outcome of `random.random() < cell_spawn_chance` at `(tx, ty)` -/
  spawn : ℤ → ℤ → Bool
  /-- outcome of `random.random() < blue_density` at `(tx, ty)` -/
  blue : ℤ → ℤ → Bool
  /-- outcome of `random.choices(['+', '.'], ...)` at `(tx, ty)` -/
  info : ℤ → ℤ → Char
  /-- `random.sample(population, k)` over cell positions -/
  sample : List (ℤ × ℤ) → ℕ → List (ℤ × ℤ)
  /-- outcome of `random.random() < column_hint_chance` at `(x, y)` -/
  skipHint : ℤ → ℤ → Bool
  /-- `random.randint(min_columns_removed, max_columns_removed)` -/
  removenum : ℕ
  /-- index drawn by `random.choice` per removal round -/
  pick : ℕ → ℕ
  /-- `random.shuffle` of the clue list -/
  shuffle : List Clue → List Clue

/-- The `(tx, ty)` pairs of the spawn loops:
`for tx in range(0, width, 2): for ty in range(height)`. -/
def spawnPairs (width height : ℕ) : List (ℤ × ℤ) :=
  ((List.range ((width + 1) / 2)).map fun k => 2 * Int.ofNat k).flatMap fun tx =>
    (List.range height).map fun ty => (tx, Int.ofNat ty)

/-- Loop body of the spawn phase of `LevelGenerator.create_pattern`.
The radius test `math.sqrt(dx*dx + dy*dy) <= radius * 1.0` is modelled
by the equivalent integer comparison of squares (both sides are
non-negative and the float square root of these small integers is
exact enough that the comparisons agree). -/
def spawnStep (P : Params) (ch : GenChoices) (g : Grid) (t : ℤ × ℤ) : Grid :=
  let x := t.1 + (-(P.width : ℤ)).fdiv 2 + 16
  let y := t.2 + (-(P.height : ℤ)).fdiv 2 + 16
  let grid_x := x + y % 2
  let grid_y := y
  let dx := grid_x - 16
  let dy := grid_y - 16
  let radius : ℕ := min P.width P.height / 2
  let radius_check : Bool :=
    if P.constrain_by_radius then dx * dx + dy * dy ≤ (radius : ℤ) * (radius : ℤ) else true
  if radius_check ∧ ch.spawn t.1 t.2 then
    let is_blue := ch.blue t.1 t.2
    let info_type := if is_blue then ch.info t.1 t.2 else '+'
    gridSet g grid_y grid_x (some (.cell ⟨grid_x, grid_y, is_blue, false, info_type⟩))
  else g

/-- The spawn phase of `create_pattern` starting from the fresh empty
grid. -/
def spawnPhase (P : Params) (ch : GenChoices) : Grid :=
  (spawnPairs P.width P.height).foldl (spawnStep P ch) emptyGrid

/-- The `all_cells` list of the reveal step: positions `(x, y)` of the
non-blue cells, in row-major scan order. -/
def nonBlueCellPositions (g : Grid) : List (ℤ × ℤ) :=
  coords33.filterMap fun p =>
    match gridGet g p.1 p.2 with
    | some (.cell c) => if c.is_blue then none else some (p.2, p.1)
    | _ => none

/-- Set `cell.revealed = True` at position `(x, y)`. -/
def revealAt (g : Grid) (p : ℤ × ℤ) : Grid :=
  match gridGet g p.2 p.1 with
  | some (.cell c) => gridSet g p.2 p.1 (some (.cell { c with revealed := true }))
  | _ => g

/-- The reveal step of `create_pattern`: reveal
`max(1, len(all_cells) // reveal_density)` sampled non-blue cells.
`random.sample` raises `ValueError` when the requested size exceeds the
population; that exception is modelled as `none`.  (A zero
`reveal_density` would raise `ZeroDivisionError` in Python; theorems
assume `reveal_density ≥ 1` as documented.) -/
def revealPhase (P : Params) (ch : GenChoices) (g : Grid) : Option Grid :=
  if max 1 ((nonBlueCellPositions g).length / P.reveal_density)
      ≤ (nonBlueCellPositions g).length then
    some ((ch.sample (nonBlueCellPositions g)
      (max 1 ((nonBlueCellPositions g).length / P.reveal_density))).foldl revealAt g)
  else none

/-- The in-place `level.set_black_cell_info_types()` call made at the end
of `create_pattern`, as a level transformer: it rewrites the grid and
keeps the hint list, title and author. -/
def setBlackOnLevel (l : GeneratedLevel) : GeneratedLevel :=
  { grid := set_black_cell_info_types l.grid
    column_hints := l.column_hints
    title := l.title
    author := l.author }

/-- `LevelGenerator.create_pattern`: spawn, reveal, attach hints,
remove random hint lines, recheck hints, then derive black-cell info
types.  `none` models the `ValueError` escape from the reveal step. -/
def create_pattern (P : Params) (ch : GenChoices) : Option GeneratedLevel :=
  match revealPhase P ch (spawnPhase P ch) with
  | none => none
  | some g2 =>
    some (setBlackOnLevel
      (recheck_hints (remove_random_column_hint ch.pick ch.removenum
        (add_column_hints ch.skipHint
          { GeneratedLevel.init with grid := g2 }))))

/-- Modelled from the spec: the two-tier deduction engine lives in the
external `solver` module, which is not part of this repository.
`LevelGenerator.is_solvable` builds a fresh scene by parsing the
serialized level text (`common.load(level.to_level_string(), ...)`)
and runs the solver loop on it, so its result is a pure function of
that text; the solver loop itself is modelled as an oracle on the
text. -/
def is_solvable (oracle : String → Bool) (l : GeneratedLevel) : Bool :=
  oracle (to_level_string l)

/-- The backup token returned by `remove_clue`: a cell's previous
`info_type`, or the removed `ColumnHint`. -/
inductive BackupVal where
  | info (c : Char)
  | hintVal (h : ColumnHint)
deriving DecidableEq, Repr

/-- `LevelGenerator.remove_clue`: temporarily remove a clue, returning
the backup.  For cell clues the slot must hold a `HexCell` (anything
else would raise `AttributeError` in Python; such clues are never
produced by `minimize_clues`, and the case is modelled as a no-op). -/
def remove_clue (l : GeneratedLevel) (clue : Clue) : Option BackupVal × GeneratedLevel :=
  match clue with
  | .flower x y | .blackcell x y =>
    match gridGet l.grid y x with
    | some (.cell c) =>
      (some (.info c.info_type),
       { grid := gridSet l.grid y x (some (.cell { c with info_type := '.' }))
         column_hints := l.column_hints
         title := l.title
         author := l.author })
    | _ => (none, l)
  | .column idx =>
    if idx < l.column_hints.length then
      match l.column_hints.get? idx with
      | some (some h) =>
        (some (.hintVal h),
         { grid := gridSet l.grid h.y h.x none
           column_hints := l.column_hints.set idx none
           title := l.title
           author := l.author })
      | _ => (none,
         { grid := l.grid
           column_hints := l.column_hints.set idx none
           title := l.title
           author := l.author })
    else (none, l)

/-- `LevelGenerator.restore_clue`: restore a previously removed clue
from its backup.  Backup shapes that `remove_clue` cannot produce for
the given clue are modelled as no-ops. -/
def restore_clue (l : GeneratedLevel) (clue : Clue) (backup : Option BackupVal) :
    GeneratedLevel :=
  match backup with
  | none => l
  | some b =>
    match clue, b with
    | .flower x y, .info bi | .blackcell x y, .info bi =>
      match gridGet l.grid y x with
      | some (.cell c) =>
        { grid := gridSet l.grid y x (some (.cell { c with info_type := bi }))
          column_hints := l.column_hints
          title := l.title
          author := l.author }
      | _ => l
    | .column idx, .hintVal h =>
      if idx < l.column_hints.length then
        { grid := gridSet l.grid h.y h.x (some (.hint h))
          column_hints := l.column_hints.set idx (some h)
          title := l.title
          author := l.author }
      else l
    | _, _ => l

/-- The clue enumeration at the top of `minimize_clues`: every column
hint index, then every clued cell in row-major order. -/
def collectClues (l : GeneratedLevel) : List Clue :=
  ((List.range l.column_hints.length).map Clue.column) ++
    coords33.filterMap fun p =>
      match gridGet l.grid p.1 p.2 with
      | some (.cell c) =>
        if c.info_type ≠ '.' then
          some (if c.is_blue then Clue.flower p.2 p.1 else Clue.blackcell p.2 p.1)
        else none
      | _ => none

/-- One iteration of the removal loop of `minimize_clues`: strip the
clue, re-check solvability on a fresh solver state, and restore the
backup when the level is no longer solvable. -/
def attemptRemove (oracle : String → Bool) (l : GeneratedLevel) (clue : Clue) :
    GeneratedLevel :=
  let r := remove_clue l clue
  if is_solvable oracle r.2 then r.2 else restore_clue r.2 clue r.1

/-- The shuffled, truncated candidate list of `minimize_clues`
(`clues[:int(len(clues) * clue_removal_ratio)]`; `int` truncates the
non-negative product, i.e. takes its floor). -/
def minimizeCandidates (P : Params) (ch : GenChoices) (l : GeneratedLevel) : List Clue :=
  let clues := ch.shuffle (collectClues l)
  clues.take (((clues.length : ℚ) * P.clue_removal_ratio).floor.toNat)

/-- `LevelGenerator.minimize_clues`: try removing each candidate clue
in order, keeping removals that preserve solvability. -/
def minimize_clues (P : Params) (ch : GenChoices) (oracle : String → Bool)
    (l : GeneratedLevel) : GeneratedLevel :=
  (minimizeCandidates P ch l).foldl (attemptRemove oracle) l

/-- `LevelGenerator._set_level_metadata` formats the title and author
strings from the float-valued generator parameters; float formatting is
outside the embedding, so the two computed strings are parameters.
Per the source the function writes only `title` and `author`. -/
def set_level_metadata (t a : String) (l : GeneratedLevel) : GeneratedLevel :=
  { grid := l.grid
    column_hints := l.column_hints
    title := t
    author := a }

/-- The attempt loop of `LevelGenerator.generate` over the listed
attempt indices.  The outer `none` models an exception escaping
(`create_pattern` can raise `ValueError`); `some none` is the
"nothing produced" return after exhausting all attempts. -/
def generateLoop (P : Params) (chs : ℕ → GenChoices) (oracle : String → Bool)
    (t a : String) : List ℕ → Option (Option GeneratedLevel)
  | [] => some none
  | i :: rest =>
    match create_pattern P (chs i) with
    | none => none
    | some level =>
      if is_solvable oracle level then
        some (some (set_level_metadata t a (minimize_clues P (chs i) oracle level)))
      else generateLoop P chs oracle t a rest

/-- `LevelGenerator.generate(max_attempts)`. -/
def generate (P : Params) (chs : ℕ → GenChoices) (oracle : String → Bool)
    (t a : String) (max_attempts : ℕ) : Option (Option GeneratedLevel) :=
  generateLoop P chs oracle t a (List.range max_attempts)

/-- A grid with the shape `GeneratedLevel.__init__` creates: 33 rows
of 33 slots.  Every operation in the source preserves this shape. -/
def Grid.WF (g : Grid) : Prop :=
  g.length = 33 ∧ ∀ row ∈ g, row.length = 33

/-- Concrete data for analysing `remove_random_column_hint`: a `'|'`
hint above a column that contains a further `'|'` hint (the layout
`add_column_hints` produces for two cells stacked four rows apart). -/
def cexH1 : ColumnHint := ⟨5, 3, .down, none⟩

/-- The second stacked hint of the `remove_random_column_hint`
analysis, sitting on `cexH1`'s line. -/
def cexH2 : ColumnHint := ⟨5, 7, .down, none⟩

/-- A level with cells at `(5, 5)` and `(5, 9)` and the two stacked
hints `cexH1`, `cexH2` — reachable from `add_column_hints` (each hint
sits in the `up-two` slot of its cell). -/
def cex6Level : GeneratedLevel :=
  { grid :=
      gridSet
        (gridSet
          (gridSet
            (gridSet emptyGrid 3 5 (some (.hint cexH1)))
            5 5 (some (.cell ⟨5, 5, false, false, '+'⟩)))
          7 5 (some (.hint cexH2)))
        9 5 (some (.cell ⟨5, 9, true, false, '+'⟩))
    column_hints := [some cexH1, some cexH2]
    title := "Generated Level"
    author := "Generator" }

/-- A level with two blue cells stacked in one column (`(x=5, y=5)`
and `(x=5, y=7)`), used to analyse hint attachment. -/
def cex7Level : GeneratedLevel :=
  { grid :=
      gridSet
        (gridSet emptyGrid 5 5 (some (.cell ⟨5, 5, true, false, '.'⟩)))
        7 5 (some (.cell ⟨5, 7, true, false, '.'⟩))
    column_hints := []
    title := "Generated Level"
    author := "Generator" }

/-- Hint-attachment draws that skip every cell except `(x=5, y=5)`. -/
def skip7 (x y : ℤ) : Bool := decide (¬(x = 5 ∧ y = 5))

/-- Pointwise description of the slot `(y, x)` after the
`set_black_cell_info_types` scan, evaluated against the scan's input
grid (the scan only rewrites `info_type` fields of non-blue cells, so
every slot's outcome is determined by the input grid; proved equal to
the scan below). -/
def setBlackResultAt (g : Grid) (y x : ℤ) : Option Entity :=
  match gridGet g y x with
  | some (.cell c) =>
    if c.is_blue ∨ c.info_type = '.' then some (.cell c)
    else if (blueNeighbors g x y).length > 1 then
      some (.cell { c with
        info_type := if all_grouped (blueNeighbors g x y) then 'c' else 'n' })
    else some (.cell c)
  | e => e

/-- A grid with a clued black cell at `(x=5, y=5)` whose two Marked
neighbors `(5, 3)` and `(5, 7)` are not adjacent to each other. -/
def cex3Grid : Grid :=
  gridSet
    (gridSet
      (gridSet emptyGrid 5 5 (some (.cell ⟨5, 5, false, false, '+'⟩)))
      3 5 (some (.cell ⟨5, 3, true, false, '.'⟩)))
    7 5 (some (.cell ⟨5, 7, true, false, '.'⟩))

/-- The `'|'` hint that `add_column_hints` attaches above the cell at
`(5, 5)` under the `skip7` draws. -/
def cexHint7 : ColumnHint := ⟨5, 3, .down, none⟩

/-- The common parity of all occupied positions a `create_pattern` run
with width `w` produces: the parity of the x-offset `-width // 2`
(the `tx` values are even and `y + y % 2` is always even, so every
spawned cell, and hence every hint placed or moved relative to one,
lands on this parity). -/
def parityTarget (w : ℕ) : ℤ := ((-(w : ℤ)).fdiv 2) % 2

/-- Every occupied grid slot lies on parity `t`. -/
def GridParity (g : Grid) (t : ℤ) : Prop :=
  ∀ y x : ℤ, gridGet g y x ≠ none → (x + y) % 2 = t

/-- Every hint in the list lies on parity `t`. -/
def HintsParity (hs : List (Option ColumnHint)) (t : ℤ) : Prop :=
  ∀ oh ∈ hs, ∀ h : ColumnHint, oh = some h → (h.x + h.y) % 2 = t

/-- The positions `(x, y)` of the revealed cells of a grid, in row-major
scan order. -/
def revealedPositions (g : Grid) : List (ℤ × ℤ) :=
  (coords33.filter fun p =>
    match gridGet g p.1 p.2 with
    | some (.cell c) => c.revealed
    | _ => false).map fun p => (p.2, p.1)

/-- No cell of the grid is revealed. -/
def NoRevealed (g : Grid) : Prop :=
  ∀ y x : ℤ, ∀ c : HexCell, gridGet g y x = some (.cell c) → c.revealed = false

/-- A minimal generator configuration: a 2x1 pattern without the
radius constraint (all parameters within their documented ranges). -/
def P0 : Params :=
  { width := 2, height := 1, constrain_by_radius := false,
    min_columns_removed := 0, max_columns_removed := 2,
    reveal_density := 7, clue_removal_ratio := 0.95 }

/-- Draws for a `P0` run: the single eligible position spawns a black
cell, no hints are attached, no hint lines are removed. -/
def ch0 : GenChoices :=
  { spawn := fun _ _ => true
    blue := fun _ _ => false
    info := fun _ _ => '.'
    sample := fun l n => l.take n
    skipHint := fun _ _ => true
    removenum := 0
    pick := fun _ => 0
    shuffle := id }

/-- The grid after the `P0`/`ch0` spawn phase: one black cell at
`(x=16, y=15)` (note `16 + 15` is odd). -/
def g0spawn : Grid :=
  gridSet emptyGrid 15 16 (some (.cell ⟨16, 15, false, false, '+'⟩))

/-- The `P0`/`ch0` grid after the reveal step: the cell is revealed. -/
def g0rev : Grid :=
  gridSet g0spawn 15 16 (some (.cell ⟨16, 15, false, true, '+'⟩))

/-- The level returned by `create_pattern P0 ch0`. -/
def l0final : GeneratedLevel :=
  { grid := set_black_cell_info_types g0rev
    column_hints := []
    title := "Generated Level"
    author := "Generator" }

/-- Draws identical to `ch0` except every spawned cell is Marked, so
the pattern contains zero non-Marked cells. -/
def ch8 : GenChoices :=
  { spawn := fun _ _ => true
    blue := fun _ _ => true
    info := fun _ _ => '.'
    sample := fun l n => l.take n
    skipHint := fun _ _ => true
    removenum := 0
    pick := fun _ => 0
    shuffle := id }

/-- The grid after the `P0`/`ch8` spawn phase: a single Marked cell, so
the pattern has zero non-Marked cells. -/
def g8spawn : Grid :=
  gridSet emptyGrid 15 16 (some (.cell ⟨16, 15, true, false, '.'⟩))

/-- The `HexCell` positions along a line, walked directly (equal to
`get_hex_cells_in_line`, which filters the non-empty slots after the
walk; this form makes the cell-only dependence explicit). -/
def cellLine (g : Grid) (dx dy : ℤ) : ℤ → ℤ → ℕ → List (ℤ × ℤ)
  | _, _, 0 => []
  | cx, cy, fuel + 1 =>
    if inBounds cx ∧ inBounds cy then
      match gridGet g cy cx with
      | some (.cell _) => (cx, cy) :: cellLine g dx dy (cx + dx) (cy + dy) fuel
      | _ => cellLine g dx dy (cx + dx) (cy + dy) fuel
    else []

/-- Two grids agree on their `HexCell` content (hint and empty slots
may differ). -/
def CellsEq (g1 g2 : Grid) : Prop :=
  ∀ y x : ℤ, ∀ c : HexCell,
    gridGet g1 y x = some (.cell c) ↔ gridGet g2 y x = some (.cell c)

/-- The grouping invariant claimed for a hint after `recheck_hints`:
with at most one Marked cell on its line the hint carries no grouping,
and with more than one it carries `'c'` exactly when the Marked cells
occupy consecutive indices of the ordered `HexCell` sequence of the
line (`'n'` otherwise). -/
def HintGood (g : Grid) (h : ColumnHint) : Prop :=
  ((blueIndices g (get_hex_cells_in_line g h.x h.y h.direction)).length ≤ 1 ∧
    h.consecutive = none) ∨
  (1 < (blueIndices g (get_hex_cells_in_line g h.x h.y h.direction)).length ∧
    h.consecutive = some (if consecRun
      (blueIndices g (get_hex_cells_in_line g h.x h.y h.direction))
      then 'c' else 'n'))

/-- The hint value the non-removed path of the `recheck_hints` loop
body stores back: the moved hint `h'` with its grouping recomputed from
the line cells of the original hint `h` (read on the pre-move grid
`sg`) and the Marked test on the post-move grid `g'`. -/
def recheckUpdate (sg g' : Grid) (h h' : ColumnHint) : ColumnHint :=
  { h' with consecutive :=
      (if ((get_hex_cells_in_line sg h.x h.y h.direction).filter fun p =>
          isBlueCellAt g' p.1 p.2).length ≤ 1 then none
      else check_consecutive g'
        (get_hex_cells_in_line sg h.x h.y h.direction)
        ((get_hex_cells_in_line sg h.x h.y h.direction).filter fun p =>
          isBlueCellAt g' p.1 p.2)) }

/-- The state invariant of the `recheck_hints` index loop relative to
the initial grid `g0` and hint list `hs0`, after the first `k` indices
have been processed: the grid stays well-formed with unchanged cell
content, the list keeps its length, unprocessed entries are untouched,
and for every hint value violating the grouping property the processed
copies of it in the list are covered by the removal accumulator. -/
def RInv (g0 : Grid) (hs0 : List (Option ColumnHint)) (k : ℕ)
    (s : RecheckState) : Prop :=
  s.grid.WF ∧ CellsEq g0 s.grid ∧
  s.hints.length = hs0.length ∧
  (∀ i : ℕ, k ≤ i → s.hints.get? i = hs0.get? i) ∧
  (∀ v : ColumnHint, ¬ HintGood g0 v →
    List.count (some v) s.hints
      ≤ List.count v s.toRemove + List.count (some v) (hs0.drop k))

/-- A clue is backed by the entity kind `minimize_clues`' enumeration
guarantees for it in level `l`: a column clue's list slot holds a
hint, a cell clue's grid slot holds a `HexCell`. -/
def ClueOk (l : GeneratedLevel) : Clue → Prop
  | .column idx => ∃ h, l.column_hints.get? idx = some (some h)
  | .flower x y => ∃ c, gridGet l.grid y x = some (.cell c)
  | .blackcell x y => ∃ c, gridGet l.grid y x = some (.cell c)

/-- The state invariant `minimize_clues` maintains relative to its
starting level `l0`: every still-listed hint occupies its own grid slot
and is the hint originally listed there, listed hints sit at pairwise
distinct positions, every slot holding a `HexCell` in `l0` still holds
one, and the hint list keeps its length. -/
def MinInv (l0 l : GeneratedLevel) : Prop :=
  (∀ idx : ℕ, ∀ h : ColumnHint, l.column_hints.get? idx = some (some h) →
    gridGet l.grid h.y h.x = some (.hint h) ∧
    l0.column_hints.get? idx = some (some h)) ∧
  (∀ i1 i2 : ℕ, ∀ h1 h2 : ColumnHint,
    l.column_hints.get? i1 = some (some h1) →
    l.column_hints.get? i2 = some (some h2) → i1 ≠ i2 →
    ¬(h1.y = h2.y ∧ h1.x = h2.x)) ∧
  (∀ y x : ℤ, ∀ c0 : HexCell, gridGet l0.grid y x = some (.cell c0) →
    ∃ c : HexCell, gridGet l.grid y x = some (.cell c)) ∧
  l.column_hints.length = l0.column_hints.length

/-- The hint of the concrete `recheck_hints` run below: a `'|'` hint at
`(x=16, y=13)` with no grouping. -/
def c4Hint : ColumnHint := ⟨16, 13, .down, none⟩

/-- A grid holding one Marked cell at `(16, 15)` and the hint `c4Hint`
two rows above it, on the cell's line. -/
def c4Grid : Grid :=
  gridSet (gridSet emptyGrid 15 16 (some (.cell ⟨16, 15, true, false, '.'⟩)))
    13 16 (some (.hint c4Hint))

/-- A concrete well-formed level for running `recheck_hints`: the grid
`c4Grid` with `c4Hint` listed. -/
def c4Level : GeneratedLevel :=
  { grid := c4Grid
    column_hints := [some c4Hint]
    title := "Generated Level"
    author := "Generator" }

/-- The `'\'` hint of the stale-hint analysis: attached at the up-left
slot `(5, 7)` of the cell `(6, 8)`, and lying on `cexH1`'s line. -/
def c1H2 : ColumnHint := ⟨5, 7, .downRight, none⟩

/-- A level reachable from `add_column_hints`: cell `(5, 5)` with the
`'|'` hint `cexH1` two rows above it, and cell `(6, 8)` with the `'\'`
hint `c1H2` at its up-left slot; `c1H2` sits on `cexH1`'s line. -/
def c1Level : GeneratedLevel :=
  { grid :=
      gridSet
        (gridSet
          (gridSet
            (gridSet emptyGrid 3 5 (some (.hint cexH1)))
            5 5 (some (.cell ⟨5, 5, false, false, '+'⟩)))
          7 5 (some (.hint c1H2)))
        8 6 (some (.cell ⟨6, 8, true, false, '.'⟩))
    column_hints := [some cexH1, some c1H2]
    title := "Generated Level"
    author := "Generator" }

/-- The level `minimize_clues` receives after the two pipeline steps
following hint attachment on `c1Level`: removing the drawn hint
`cexH1` clears `c1H2`'s slot (`c1H2` lies on the removed line) while
keeping it listed, and `recheck_hints` keeps it listed without
re-placing it (its move loop stops immediately on the cell at
`(6, 8)`), so the listed hint `c1H2` occupies no grid slot. -/
def c1Stale : GeneratedLevel :=
  recheck_hints (remove_random_column_hint (fun r => 0) 1 c1Level)

-- ===================================================================
-- Theorems
-- ===================================================================

theorem emptyGrid_WF : emptyGrid.WF := by
  unfold Grid.WF
  constructor
  · simp [emptyGrid]
  · intro row hrow
    simp only [emptyGrid, List.mem_replicate] at hrow
    simp [hrow.2]

theorem gridSet_WF {g : Grid} (h : g.WF) (y x : ℤ) (v : Option Entity) :
    (gridSet g y x v).WF := by
  unfold Grid.WF at h ⊢
  unfold gridSet
  split
  · split
    · refine ⟨by simpa [List.length_set] using h.1, ?_⟩
      intro row hrow
      rcases List.mem_or_eq_of_mem_set hrow with h' | h'
      · exact h.2 row h'
      · subst h'
        rename_i r hr
        rw [List.length_set]
        exact h.2 r (by
          rw [List.get?_eq_getElem?] at hr
          exact List.getElem?_mem hr)
    · exact h
  · exact h

theorem gridGet_emptyGrid (y x : ℤ) : gridGet emptyGrid y x = none := by
  unfold gridGet emptyGrid
  split
  · rw [List.get?_eq_getElem?, List.getElem?_replicate]
    split
    · rw [Option.some_bind, List.get?_eq_getElem?, List.getElem?_replicate]
      split <;> rfl
    · rfl
  · rfl

theorem gridGet_neg (g : Grid) {y x : ℤ} (h : y < 0 ∨ x < 0) :
    gridGet g y x = none := by
  unfold gridGet
  rw [if_neg]
  omega

theorem gridGet_gridSet_self {g : Grid} (hw : g.WF) {y x : ℤ}
    (hy : 0 ≤ y ∧ y < 33) (hx : 0 ≤ x ∧ x < 33) (v : Option Entity) :
    gridGet (gridSet g y x v) y x = v := by
  unfold Grid.WF at hw
  have hylen : y.toNat < g.length := by rw [hw.1]; omega
  have hrow : ∃ row, g.get? y.toNat = some row := by
    rw [List.get?_eq_getElem?]
    exact ⟨_, List.getElem?_eq_getElem hylen⟩
  obtain ⟨row, hr⟩ := hrow
  have hrowlen : row.length = 33 := by
    refine hw.2 row ?_
    rw [List.get?_eq_getElem?] at hr
    exact List.getElem?_mem hr
  unfold gridSet gridGet
  rw [if_pos ⟨hy.1, hx.1⟩, hr, if_pos ⟨hy.1, hx.1⟩]
  rw [List.get?_eq_getElem?, List.getElem?_set_self hylen]
  rw [Option.some_bind, List.get?_eq_getElem?,
    List.getElem?_set_self (by rw [hrowlen]; omega)]
  rfl

theorem list_set_of_get? {α : Type} {l : List α} {i : ℕ} {a : α}
    (h : l.get? i = some a) : l.set i a = l := by
  rw [List.get?_eq_getElem?] at h
  induction l generalizing i with
  | nil => simp at h
  | cons b t ih =>
    cases i with
    | zero => simp at h; simp [h]
    | succ j =>
      simp only [List.getElem?_cons_succ] at h
      simp [List.set_cons_succ, ih h]

theorem gridGet_bounds {g : Grid} (hw : g.WF) {y x : ℤ} {e : Entity}
    (h : gridGet g y x = some e) : inBounds y ∧ inBounds x := by
  unfold Grid.WF at hw
  unfold gridGet at h
  split at h
  · rename_i hb
    cases hg : g.get? y.toNat with
    | none => rw [hg] at h; simp at h
    | some row =>
      rw [hg, Option.some_bind] at h
      have hylt : y.toNat < g.length := by
        by_contra hge
        rw [List.get?_eq_getElem?, List.getElem?_eq_none (by omega)] at hg
        exact Option.noConfusion hg
      have hrowlen : row.length = 33 := by
        refine hw.2 row ?_
        rw [List.get?_eq_getElem?] at hg
        exact List.getElem?_mem hg
      have hxlt : x.toNat < row.length := by
        by_contra hge
        rw [List.get?_eq_getElem?, List.getElem?_eq_none (by omega)] at h
        simp at h
      constructor
      · exact ⟨hb.1, by omega⟩
      · exact ⟨hb.2, by omega⟩
  · exact absurd h (by simp)

theorem gridSet_gridSet (g : Grid) (y x : ℤ) (v w : Option Entity) :
    gridSet (gridSet g y x v) y x w = gridSet g y x w := by
  unfold gridSet
  by_cases hb : 0 ≤ y ∧ 0 ≤ x
  · rw [if_pos hb, if_pos hb, if_pos hb]
    cases hg : g.get? y.toNat with
    | none => rw [hg]
    | some row =>
      have hylt : y.toNat < g.length := by
        by_contra hge
        rw [List.get?_eq_getElem?, List.getElem?_eq_none (by omega)] at hg
        exact Option.noConfusion hg
      simp only [hg, List.get?_eq_getElem?,
        List.getElem?_set_self (show y.toNat < g.length from hylt)]
      rw [List.set_set, List.set_set]
  · rw [if_neg hb, if_neg hb, if_neg hb]

theorem gridSet_gridGet_some {g : Grid} {y x : ℤ} {e : Entity}
    (h : gridGet g y x = some e) : gridSet g y x (some e) = g := by
  unfold gridGet at h
  split at h
  · rename_i hb
    cases hg : g.get? y.toNat with
    | none => rw [hg] at h; simp at h
    | some row =>
      rw [hg, Option.some_bind] at h
      have hrx : row.get? x.toNat = some (some e) := by
        cases hrx : row.get? x.toNat with
        | none => rw [hrx] at h; simp at h
        | some o =>
          rw [hrx] at h
          cases o with
          | none => simp at h
          | some e' => simp at h; rw [h]
      unfold gridSet
      rw [if_pos hb]
      simp only [hg]
      rw [list_set_of_get? hrx, list_set_of_get? hg]
  · exact absurd h (by simp)

theorem gridGet_gridSet_ne {g : Grid} {y x y' x' : ℤ} (v : Option Entity)
    (h : y' ≠ y ∨ x' ≠ x) :
    gridGet (gridSet g y x v) y' x' = gridGet g y' x' := by
  unfold gridSet gridGet
  by_cases hb : 0 ≤ y ∧ 0 ≤ x
  · rw [if_pos hb]
    cases hg : g.get? y.toNat with
    | none => rfl
    | some row =>
      have hlt : y.toNat < g.length := by
        by_contra hge
        rw [List.get?_eq_getElem?, List.getElem?_eq_none (by omega)] at hg
        exact Option.noConfusion hg
      by_cases hb' : 0 ≤ y' ∧ 0 ≤ x'
      · rw [if_pos hb', if_pos hb']
        rcases Classical.em (y' = y) with rfl | hyy
        · have hxne : x' ≠ x := h.resolve_left (by simp)
          have hxx : x'.toNat ≠ x.toNat := by omega
          rw [List.get?_eq_getElem?, List.getElem?_set_self hlt, hg,
            Option.some_bind, Option.some_bind, List.get?_eq_getElem?,
            List.getElem?_set_ne (Ne.symm hxx), List.get?_eq_getElem?]
        · have hyy' : y.toNat ≠ y'.toNat := by omega
          rw [List.get?_eq_getElem?, List.getElem?_set_ne hyy',
            ← List.get?_eq_getElem?]
      · rw [if_neg hb', if_neg hb']
  · rw [if_neg hb]

theorem erase_beq_irrel (l : List (Option ColumnHint)) (a : Option ColumnHint) :
    @List.erase _ Option.instBEq l a
      = @List.erase _ instBEqOfDecidableEq l a := by
  induction l with
  | nil => rfl
  | cons b t ih =>
    by_cases hb : b = a
    · subst hb
      simp [List.erase_cons]
    · simp [List.erase_cons, hb, ih]

theorem gridGet_gridSet_none_self (g : Grid) (y x : ℤ) :
    gridGet (gridSet g y x none) y x = none := by
  by_cases hb : 0 ≤ y ∧ 0 ≤ x
  · unfold gridSet
    rw [if_pos hb]
    cases hg : g.get? y.toNat with
    | none =>
      unfold gridGet
      rw [if_pos hb, hg]
      rfl
    | some row =>
      have hylt : y.toNat < g.length := by
        by_contra hge
        rw [List.get?_eq_getElem?, List.getElem?_eq_none (by omega)] at hg
        exact Option.noConfusion hg
      unfold gridGet
      rw [if_pos hb, List.get?_eq_getElem?,
        List.getElem?_set_self (by simpa using hylt), Option.some_bind]
      by_cases hx : x.toNat < row.length
      · rw [List.get?_eq_getElem?, List.getElem?_set_self hx]
        rfl
      · rw [List.get?_eq_getElem?,
          List.getElem?_eq_none (by rw [List.length_set]; omega)]
        rfl
  · exact gridGet_neg _ (by omega)

theorem gridGet_clearFold (ps : List (ℤ × ℤ)) (g : Grid) (y x : ℤ) :
    gridGet (ps.foldl (fun g' p => gridSet g' p.2 p.1 none) g) y x
      = if (x, y) ∈ ps then none else gridGet g y x := by
  induction ps generalizing g with
  | nil => simp
  | cons p rest ih =>
    rw [List.foldl_cons, ih]
    by_cases hm : (x, y) ∈ rest
    · simp [hm]
    · rw [if_neg hm]
      by_cases hp : (x, y) = p
      · subst hp
        rw [if_pos (List.mem_cons_self _ _)]
        exact gridGet_gridSet_none_self g y x
      · rw [if_neg (by simp [hp, hm])]
        refine gridGet_gridSet_ne none ?_
        have : ¬(x = p.1 ∧ y = p.2) := by
          intro hcon
          exact hp (by rw [hcon.1, hcon.2])
        tauto

/-- C6 (amended): one removal performed by
`remove_random_column_hint` clears exactly the non-empty grid slots
along the chosen hint's line — HexCells and any ColumnHints lying on
it — plus the chosen hint's own slot; it removes exactly the chosen
hint (one occurrence) from `column_hints`, and leaves every other grid
slot and the metadata unchanged.  (A hint that lay on the cleared line
stays in the list, so it need not occupy its grid slot afterwards.) -/
theorem C6_removeHint_frame (l : GeneratedLevel) (h : ColumnHint)
    (hmem : some h ∈ l.column_hints) :
    (∀ y x : ℤ,
      gridGet (removeHintAndLine l h).grid y x =
        if (x, y) ∈ get_line_cells l.grid h.x h.y h.direction ∨ (y = h.y ∧ x = h.x)
        then none else gridGet l.grid y x) ∧
    (removeHintAndLine l h).column_hints = l.column_hints.erase (some h) ∧
    l.column_hints.Perm (some h :: (removeHintAndLine l h).column_hints) ∧
    (removeHintAndLine l h).title = l.title ∧
    (removeHintAndLine l h).author = l.author := by
  refine ⟨?_, rfl, ?_, rfl, rfl⟩
  · intro y x
    show gridGet
      (gridSet ((get_line_cells l.grid h.x h.y h.direction).foldl
        (fun g' p => gridSet g' p.2 p.1 none) l.grid) h.y h.x none) y x = _
    by_cases hself : y = h.y ∧ x = h.x
    · rw [hself.1, hself.2, gridGet_gridSet_none_self,
        if_pos (Or.inr ⟨rfl, rfl⟩)]
    · rw [gridGet_gridSet_ne none (by tauto), gridGet_clearFold]
      by_cases hline : (x, y) ∈ get_line_cells l.grid h.x h.y h.direction
      · rw [if_pos hline, if_pos (Or.inl hline)]
      · rw [if_neg hline, if_neg (by tauto)]
  · show l.column_hints.Perm (some h :: l.column_hints.erase (some h))
    rw [erase_beq_irrel]
    exact List.perm_cons_erase hmem

/-- C6 counterexample: removing the hint `cexH1` clears the slot
`(x=5, y=7)`, which lies on its line but holds the ColumnHint `cexH2`
(not a Cell); `cexH2` remains in the hint list while no longer
occupying its grid slot.  This refutes both "clears exactly the Cells
lying along the line plus the chosen hint" and "every LineHint still
in the list still occupies its own grid position". -/
theorem C6_counterexample :
    gridGet cex6Level.grid 7 5 = some (.hint cexH2) ∧
    (5, 7) ∈ get_line_cells cex6Level.grid 5 3 Dir.down ∧
    gridGet (removeHintAndLine cex6Level cexH1).grid 7 5 = none ∧
    some cexH2 ∈ (removeHintAndLine cex6Level cexH1).column_hints := by
  decide

theorem C6_witness :
    some cexH1 ∈ cex6Level.column_hints ∧
    (removeHintAndLine cex6Level cexH1).column_hints
      = cex6Level.column_hints.erase (some cexH1) :=
  ⟨by decide, (C6_removeHint_frame cex6Level cexH1 (by decide)).2.1⟩

theorem foldl_congr_id {α β : Type} {f : α → β → α} {l : List β} {a : α}
    (h : ∀ b ∈ l, ∀ s, f s b = s) : l.foldl f a = a := by
  induction l generalizing a with
  | nil => rfl
  | cons b t ih =>
    rw [List.foldl_cons, h b (List.mem_cons_self _ _)]
    exact ih fun b' hb' s => h b' (List.mem_cons_of_mem _ hb') s

theorem foldl_single_step {α β : Type} [DecidableEq β] {f : α → β → α}
    {coords : List β} (t : β) {a : α}
    (hcount : coords.count t = 1)
    (hid : ∀ b ∈ coords, b ≠ t → ∀ s, f s b = s) :
    coords.foldl f a = f a t := by
  induction coords generalizing a with
  | nil => simp at hcount
  | cons b rest ih =>
    by_cases hb : b = t
    · subst hb
      rw [List.count_cons_self] at hcount
      have hrest : rest.count b = 0 := by omega
      rw [List.foldl_cons]
      refine foldl_congr_id fun q hq s => ?_
      have hqb : q ≠ b := by
        intro hqb
        subst hqb
        rw [List.count_eq_zero] at hrest
        exact hrest hq
      exact hid q (List.mem_cons_of_mem _ hq) hqb s
    · rw [List.foldl_cons, hid b (List.mem_cons_self _ _) hb]
      refine ih ?_ fun q hq hqt s => hid q (List.mem_cons_of_mem _ hq) hqt s
      rwa [List.count_cons_of_ne (Ne.symm hb)] at hcount

theorem mem_coords33 {p : ℤ × ℤ} :
    p ∈ coords33 ↔ (0 ≤ p.1 ∧ p.1 < 33) ∧ (0 ≤ p.2 ∧ p.2 < 33) := by
  obtain ⟨py, px⟩ := p
  simp only [coords33, List.mem_flatMap, List.mem_map, List.mem_range,
    Prod.mk.injEq, Int.ofNat_eq_natCast]
  constructor
  · rintro ⟨y, hy, x, hx, rfl, rfl⟩
    omega
  · rintro ⟨⟨h1, h2⟩, h3, h4⟩
    exact ⟨py.toNat, by omega, px.toNat, by omega, by omega, by omega⟩

theorem coords33_nodup : coords33.Nodup := by
  unfold coords33
  rw [List.nodup_flatMap]
  refine ⟨fun y _ => ?_, ?_⟩
  · refine List.Nodup.map (fun a b hab => ?_) (List.nodup_range 33)
    simpa using hab
  · refine List.Pairwise.imp ?_ (List.pairwise_lt_range 33)
    intro a b hlt p hpa hpb
    rw [List.mem_map] at hpa hpb
    obtain ⟨xa, _, ha⟩ := hpa
    obtain ⟨xb, _, hb⟩ := hpb
    rw [← hb] at ha
    have := congrArg Prod.fst ha
    simp at this
    omega

theorem count_coords33_eq_one (p : ℤ × ℤ) (hp : p ∈ coords33) :
    @List.count _ instBEqOfDecidableEq p coords33 = 1 :=
  List.count_eq_one_of_mem coords33_nodup hp

theorem addColumnHints_cex7 :
    add_column_hints skip7 cex7Level = addHintsAround cex7Level 5 5 := by
  unfold add_column_hints
  rw [foldl_single_step ((5 : ℤ), (5 : ℤ))
    (count_coords33_eq_one ((5 : ℤ), (5 : ℤ)) (by rw [mem_coords33]; omega))]
  · show addColumnHintsStep skip7 cex7Level (5, 5) = _
    unfold addColumnHintsStep
    have hc : gridGet cex7Level.grid 5 5
        = some (.cell ⟨5, 5, true, false, '.'⟩) := by decide
    rw [hc]
    rfl
  · rintro ⟨y, x⟩ _ hne s
    unfold addColumnHintsStep
    have hs : skip7 x y = true := by
      unfold skip7
      rw [decide_eq_true_iff]
      intro hcon
      exact hne (by rw [Prod.mk.injEq]; omega)
    cases hg : gridGet s.grid y x with
    | none => rfl
    | some e =>
      cases e with
      | cell c => simp only [hs, if_true]
      | hint h => rfl

theorem addHintsAround_new_none (l : GeneratedLevel) (x y : ℤ) :
    ∀ oh ∈ (addHintsAround l x y).column_hints,
      oh ∈ l.column_hints ∨ ∃ h : ColumnHint, oh = some h ∧ h.consecutive = none := by
  unfold addHintsAround
  generalize hintDirections = ds
  induction ds generalizing l with
  | nil => exact fun oh hmem => Or.inl hmem
  | cons d rest ih =>
    intro oh hmem
    rw [List.foldl_cons] at hmem
    rcases ih _ oh hmem with hin | hnew
    · by_cases hb : inBounds (x + d.1) ∧ inBounds (y + d.2.1)
      · simp only [hb, if_true] at hin
        by_cases hg : gridGet l.grid (y + d.2.1) (x + d.1) = none
        · simp only [hg, if_true] at hin
          rcases List.mem_append.mp hin with hold | hnew
          · exact Or.inl hold
          · refine Or.inr ⟨⟨x + d.1, y + d.2.1, d.2.2, none⟩, ?_, rfl⟩
            simpa using hnew
        · simp only [hg, if_false] at hin
          exact Or.inl hin
      · simp only [hb, if_false] at hin
        exact Or.inl hin
    · exact Or.inr hnew

/-- C7 (amended): `add_column_hints` creates every new `LineHint` with
`consecutive = None`; the hint's grouping is NOT computed from the line
contents at attachment time (that happens later, in `recheck_hints`).
Every hint of the output list is either an input hint or a newly
attached hint whose grouping field is `None`. -/
theorem C7_new_hints_grouping_none (skipH : ℤ → ℤ → Bool) (l : GeneratedLevel) :
    ∀ oh ∈ (add_column_hints skipH l).column_hints,
      oh ∈ l.column_hints ∨ ∃ h : ColumnHint, oh = some h ∧ h.consecutive = none := by
  unfold add_column_hints
  generalize coords33 = coords
  induction coords generalizing l with
  | nil => exact fun oh hmem => Or.inl hmem
  | cons p rest ih =>
    intro oh hmem
    rw [List.foldl_cons] at hmem
    rcases ih _ oh hmem with hin | hnew
    · unfold addColumnHintsStep at hin
      cases hg : gridGet l.grid p.1 p.2 with
      | none => rw [hg] at hin; exact Or.inl hin
      | some e =>
        cases e with
        | cell c =>
          rw [hg] at hin
          by_cases hs : skipH p.2 p.1
          · simp only [hs, if_true] at hin
            exact Or.inl hin
          · simp only [hs, if_false] at hin
            exact addHintsAround_new_none l p.2 p.1 oh hin
        | hint h => rw [hg] at hin; exact Or.inl hin
    · exact Or.inr hnew

/-- C7 counterexample: the run of `add_column_hints` under the `skip7`
draws attaches `cexHint7` above the cell at `(5, 5)`; the hint's line
holds two Marked cells, yet its grouping is `None` (the claim demands
grouping `'c'`/`'n'` computed from the line, with `None` only when at
most one Marked cell lies on the line). -/
theorem C7_counterexample :
    some cexHint7 ∈ (add_column_hints skip7 cex7Level).column_hints ∧
    some cexHint7 ∉ cex7Level.column_hints ∧
    ((get_hex_cells_in_line (add_column_hints skip7 cex7Level).grid 5 3 .down).filter
      (fun p => isBlueCellAt (add_column_hints skip7 cex7Level).grid p.1 p.2)).length = 2 ∧
    cexHint7.consecutive = none := by
  rw [addColumnHints_cex7]
  decide

theorem C7_witness :
    some cexHint7 ∈ (add_column_hints skip7 cex7Level).column_hints ∧
    (some cexHint7 ∈ cex7Level.column_hints ∨
      ∃ h : ColumnHint, some cexHint7 = some h ∧ h.consecutive = none) :=
  ⟨by rw [addColumnHints_cex7]; decide,
   C7_new_hints_grouping_none skip7 cex7Level (some cexHint7)
     (by rw [addColumnHints_cex7]; decide)⟩

theorem setBlackStep_WF {g : Grid} (hw : g.WF) (p : ℤ × ℤ) :
    (setBlackStep g p).WF := by
  unfold setBlackStep
  cases gridGet g p.1 p.2 with
  | none => exact hw
  | some e =>
    cases e with
    | cell c =>
      by_cases h1 : c.is_blue ∨ c.info_type = '.'
      · simp only [h1, if_true]; exact hw
      · simp only [h1, if_false]
        by_cases h2 : (blueNeighbors g p.2 p.1).length > 1
        · simp only [h2, if_true]; exact gridSet_WF hw _ _ _
        · simp only [h2, if_false]; exact hw
    | hint h => exact hw

theorem setBlackStep_frame {g : Grid} {p : ℤ × ℤ} {y x : ℤ}
    (hne : ¬(p.1 = y ∧ p.2 = x)) :
    gridGet (setBlackStep g p) y x = gridGet g y x := by
  unfold setBlackStep
  cases gridGet g p.1 p.2 with
  | none => rfl
  | some e =>
    cases e with
    | cell c =>
      by_cases h1 : c.is_blue ∨ c.info_type = '.'
      · simp only [h1, if_true]
      · simp only [h1, if_false]
        by_cases h2 : (blueNeighbors g p.2 p.1).length > 1
        · simp only [h2, if_true]
          exact gridGet_gridSet_ne _ (by tauto)
        · simp only [h2, if_false]
    | hint h => rfl

theorem isBlueCellAt_setBlackStep {g : Grid} (hw : g.WF) (p : ℤ × ℤ) (y x : ℤ) :
    isBlueCellAt (setBlackStep g p) x y = isBlueCellAt g x y := by
  unfold setBlackStep
  cases hg : gridGet g p.1 p.2 with
  | none => rfl
  | some e =>
    cases e with
    | cell c =>
      by_cases h1 : c.is_blue ∨ c.info_type = '.'
      · simp only [h1, if_true]
      · simp only [h1, if_false]
        by_cases h2 : (blueNeighbors g p.2 p.1).length > 1
        · simp only [h2, if_true]
          by_cases hp : p.1 = y ∧ p.2 = x
          · obtain ⟨hy, hx⟩ := hp
            subst hy; subst hx
            have hb := gridGet_bounds hw hg
            unfold isBlueCellAt
            rw [gridGet_gridSet_self hw hb.1 hb.2, hg]
          · unfold isBlueCellAt
            rw [gridGet_gridSet_ne _ (by tauto)]
        · simp only [h2, if_false]
    | hint h => rfl

theorem blueNeighbors_eq_filter (g : Grid) (x y : ℤ) :
    blueNeighbors g x y
      = (get_neighbors x y).filter fun p => isBlueCellAt g p.1 p.2 := rfl

theorem blueNeighbors_setBlackStep {g : Grid} (hw : g.WF) (p : ℤ × ℤ) (x y : ℤ) :
    blueNeighbors (setBlackStep g p) x y = blueNeighbors g x y := by
  rw [blueNeighbors_eq_filter, blueNeighbors_eq_filter]
  refine List.filter_congr fun q _ => ?_
  rw [isBlueCellAt_setBlackStep hw]

theorem setBlackStep_self {g : Grid} (hw : g.WF) (y x : ℤ) :
    gridGet (setBlackStep g (y, x)) y x = setBlackResultAt g y x := by
  unfold setBlackStep setBlackResultAt
  cases hg : gridGet g y x with
  | none => simpa using hg
  | some e =>
    cases e with
    | cell c =>
      by_cases h1 : c.is_blue ∨ c.info_type = '.'
      · simpa [h1] using hg
      · simp only [h1, if_false]
        by_cases h2 : (blueNeighbors g x y).length > 1
        · simp only [h2, if_true]
          have hb := gridGet_bounds hw hg
          exact gridGet_gridSet_self hw hb.1 hb.2 _
        · simpa [h2] using hg
    | hint h => simpa using hg

theorem setBlackResultAt_congr {g1 g : Grid} {y x : ℤ}
    (hget : gridGet g1 y x = gridGet g y x)
    (hbn : blueNeighbors g1 x y = blueNeighbors g x y) :
    setBlackResultAt g1 y x = setBlackResultAt g y x := by
  unfold setBlackResultAt
  rw [hget, hbn]

theorem set_black_fold_pointwise (coords : List (ℤ × ℤ)) (hnd : coords.Nodup)
    {g : Grid} (hw : g.WF) (y x : ℤ) :
    gridGet (coords.foldl setBlackStep g) y x
      = if (y, x) ∈ coords then setBlackResultAt g y x else gridGet g y x := by
  induction coords generalizing g with
  | nil => simp
  | cons p rest ih =>
    rw [List.foldl_cons]
    have hnd' := (List.nodup_cons.mp hnd).2
    have hw1 := setBlackStep_WF hw p
    rw [ih hnd' hw1]
    by_cases hp : (y, x) = p
    · subst hp
      have hnotin : ((y, x) : ℤ × ℤ) ∉ rest := (List.nodup_cons.mp hnd).1
      rw [if_neg hnotin, if_pos (List.mem_cons_self _ _)]
      exact setBlackStep_self hw y x
    · by_cases hin : (y, x) ∈ rest
      · rw [if_pos hin, if_pos (List.mem_cons_of_mem _ hin)]
        refine setBlackResultAt_congr ?_ ?_
        · exact setBlackStep_frame (by
            intro hcon
            exact hp (by rw [Prod.mk.injEq]; exact ⟨hcon.1.symm, hcon.2.symm⟩))
        · exact blueNeighbors_setBlackStep hw p x y
      · rw [if_neg hin, if_neg (by simp [hp, hin])]
        exact setBlackStep_frame (by
          intro hcon
          exact hp (by rw [Prod.mk.injEq]; exact ⟨hcon.1.symm, hcon.2.symm⟩))

theorem set_black_pointwise {g : Grid} (hw : g.WF) {y x : ℤ} {c : HexCell}
    (hc : gridGet g y x = some (.cell c)) :
    gridGet (set_black_cell_info_types g) y x = setBlackResultAt g y x := by
  unfold set_black_cell_info_types
  rw [set_black_fold_pointwise coords33 coords33_nodup hw]
  have hb := gridGet_bounds hw hc
  rw [if_pos]
  rw [mem_coords33]
  unfold inBounds at hb
  exact ⟨hb.1, hb.2⟩

theorem groupPass_mono {positions grouped : List (ℤ × ℤ)} {q : ℤ × ℤ}
    (hq : q ∈ grouped) : q ∈ groupPass positions grouped := by
  unfold groupPass
  induction positions generalizing grouped with
  | nil => exact hq
  | cons p rest ih =>
    rw [List.foldl_cons]
    split
    · exact ih (List.mem_append_left _ hq)
    · exact ih hq

theorem groupPass_subset {positions grouped : List (ℤ × ℤ)} {q : ℤ × ℤ}
    (hq : q ∈ groupPass positions grouped) : q ∈ grouped ∨ q ∈ positions := by
  unfold groupPass at hq
  induction positions generalizing grouped with
  | nil => exact Or.inl hq
  | cons p rest ih =>
    rw [List.foldl_cons] at hq
    split at hq
    · rcases ih hq with hin | hin
      · rcases List.mem_append.mp hin with h | h
        · exact Or.inl h
        · exact Or.inr (by simp at h; simp [h])
      · exact Or.inr (List.mem_cons_of_mem _ hin)
    · rcases ih hq with hin | hin
      · exact Or.inl hin
      · exact Or.inr (List.mem_cons_of_mem _ hin)

theorem groupPass_nodup {positions grouped : List (ℤ × ℤ)}
    (hnd : grouped.Nodup) : (groupPass positions grouped).Nodup := by
  unfold groupPass
  induction positions generalizing grouped with
  | nil => exact hnd
  | cons p rest ih =>
    rw [List.foldl_cons]
    split
    · rename_i hcond
      refine ih ?_
      rw [List.nodup_append]
      exact ⟨hnd, List.nodup_singleton p, by
        intro a ha hb
        simp at hb
        subst hb
        exact hcond.1 ha⟩
    · exact ih hnd

theorem groupClosure_subset {positions grouped : List (ℤ × ℤ)} {fuel : ℕ} {q : ℤ × ℤ}
    (hq : q ∈ groupClosure positions grouped fuel) :
    q ∈ grouped ∨ q ∈ positions := by
  induction fuel generalizing grouped with
  | zero => exact Or.inl hq
  | succ n ih =>
    unfold groupClosure at hq
    split at hq
    · exact Or.inl hq
    · rcases ih hq with hin | hin
      · exact groupPass_subset hin
      · exact Or.inr hin

theorem groupClosure_nodup {positions grouped : List (ℤ × ℤ)} {fuel : ℕ}
    (hnd : grouped.Nodup) : (groupClosure positions grouped fuel).Nodup := by
  induction fuel generalizing grouped with
  | zero => exact hnd
  | succ n ih =>
    unfold groupClosure
    split
    · exact hnd
    · exact ih (groupPass_nodup hnd)

theorem all_grouped_iff_mem {p : ℤ × ℤ} {rest : List (ℤ × ℤ)}
    (hnd : (p :: rest).Nodup) :
    (all_grouped (p :: rest) = true ↔
      ∀ q, q ∈ groupClosure (p :: rest) [p] (p :: rest).length ↔ q ∈ p :: rest) := by
  have hsub : ∀ q ∈ groupClosure (p :: rest) [p] (p :: rest).length, q ∈ p :: rest := by
    intro q hq
    rcases groupClosure_subset hq with hin | hin
    · simp at hin
      subst hin
      exact List.mem_cons_self _ _
    · exact hin
  have hndcl : (groupClosure (p :: rest) [p] (p :: rest).length).Nodup :=
    groupClosure_nodup (List.nodup_singleton p)
  constructor
  · intro hlen q
    have hlen' : (groupClosure (p :: rest) [p] (p :: rest).length).length
        = (p :: rest).length := by
      have : all_grouped (p :: rest) = decide
          ((groupClosure (p :: rest) [p] (p :: rest).length).length
            = (p :: rest).length) := rfl
      rw [this, decide_eq_true_iff] at hlen
      exact hlen
    have hfsub : (groupClosure (p :: rest) [p] (p :: rest).length).toFinset
        ⊆ (p :: rest).toFinset := by
      intro a ha
      rw [List.mem_toFinset] at ha ⊢
      exact hsub a ha
    have hfeq := Finset.eq_of_subset_of_card_le hfsub (by
      rw [List.toFinset_card_of_nodup hnd, List.toFinset_card_of_nodup hndcl, hlen'])
    constructor
    · exact hsub q
    · intro hq
      rw [← List.mem_toFinset, ← hfeq, List.mem_toFinset] at hq
      exact hq
  · intro hmem
    have hfeq : (groupClosure (p :: rest) [p] (p :: rest).length).toFinset
        = (p :: rest).toFinset := by
      ext a
      rw [List.mem_toFinset, List.mem_toFinset]
      exact hmem a
    have hcards := congrArg Finset.card hfeq
    rw [List.toFinset_card_of_nodup hndcl, List.toFinset_card_of_nodup hnd] at hcards
    show decide _ = true
    rw [decide_eq_true_iff]
    exact hcards

theorem get_neighbors_nodup (x y : ℤ) : (get_neighbors x y).Nodup := by
  unfold get_neighbors
  refine List.Nodup.filterMap ?_ (by decide)
  intro a b q hqa hqb
  split at hqa
  · simp at hqa
    split at hqb
    · simp at hqb
      rw [← hqb] at hqa
      have h1 := congrArg Prod.fst hqa
      have h2 := congrArg Prod.snd hqa
      simp at h1 h2
      rw [Prod.ext_iff]
      omega
    · simp at hqb
  · simp at hqa

theorem blueNeighbors_nodup (g : Grid) (x y : ℤ) :
    (blueNeighbors g x y).Nodup := by
  rw [blueNeighbors_eq_filter]
  exact List.Nodup.filter _ (get_neighbors_nodup x y)

/-- C3: after `set_black_cell_info_types`, a non-Marked cell carrying a
clue whose Marked-neighbor set has size at least 2 gets grouping `'c'`
exactly when `all_grouped` accepts that set — which holds exactly when
the worklist closure grown from the set's first element covers the set
— and `'n'` otherwise; a cell with at most one Marked neighbor keeps
its clue unchanged. -/
theorem C3_set_black_grouping (g : Grid) (hw : g.WF) (y x : ℤ) (c : HexCell)
    (hc : gridGet g y x = some (.cell c)) (hblue : c.is_blue = false)
    (hinfo : c.info_type ≠ '.') :
    (2 ≤ (blueNeighbors g x y).length →
      gridGet (set_black_cell_info_types g) y x =
        some (.cell { c with
          info_type := if all_grouped (blueNeighbors g x y) then 'c' else 'n' })) ∧
    ((blueNeighbors g x y).length ≤ 1 →
      gridGet (set_black_cell_info_types g) y x = some (.cell c)) ∧
    (∀ p rest, blueNeighbors g x y = p :: rest →
      (all_grouped (blueNeighbors g x y) = true ↔
        ∀ q, q ∈ groupClosure (blueNeighbors g x y) [p] (blueNeighbors g x y).length
          ↔ q ∈ blueNeighbors g x y)) := by
  have hres := set_black_pointwise hw hc
  have hnot : ¬(c.is_blue = true ∨ c.info_type = '.') := by
    rw [hblue]
    simp [hinfo]
  refine ⟨?_, ?_, ?_⟩
  · intro h2
    rw [hres]
    unfold setBlackResultAt
    rw [hc]
    simp only [hnot, if_false]
    rw [if_pos (by omega)]
  · intro h1
    rw [hres]
    unfold setBlackResultAt
    rw [hc]
    simp only [hnot, if_false]
    rw [if_neg (by omega)]
  · intro p rest hbn
    rw [hbn]
    exact all_grouped_iff_mem (hbn ▸ blueNeighbors_nodup g x y)

theorem cex3Grid_WF : cex3Grid.WF := by
  unfold cex3Grid
  exact gridSet_WF (gridSet_WF (gridSet_WF emptyGrid_WF _ _ _) _ _ _) _ _ _

theorem C3_witness :
    gridGet cex3Grid 5 5 = some (.cell ⟨5, 5, false, false, '+'⟩) ∧
    2 ≤ (blueNeighbors cex3Grid 5 5).length ∧
    gridGet (set_black_cell_info_types cex3Grid) 5 5 =
      some (.cell { (⟨5, 5, false, false, '+'⟩ : HexCell) with
        info_type := if all_grouped (blueNeighbors cex3Grid 5 5) then 'c' else 'n' }) :=
  ⟨by decide, by decide,
   (C3_set_black_grouping cex3Grid cex3Grid_WF 5 5 ⟨5, 5, false, false, '+'⟩
     (by decide) rfl (by decide)).1 (by decide)⟩

theorem GridParity_gridSet {g : Grid} {t y0 x0 : ℤ} {v : Option Entity}
    (hg : GridParity g t) (hp : (x0 + y0) % 2 = t) :
    GridParity (gridSet g y0 x0 v) t := by
  intro y x hne
  by_cases h : y = y0 ∧ x = x0
  · rw [h.1, h.2]
    exact hp
  · rw [gridGet_gridSet_ne _ (by tauto)] at hne
    exact hg y x hne

theorem mem_spawnPairs_even {w h : ℕ} {t : ℤ × ℤ} (ht : t ∈ spawnPairs w h) :
    ∃ k : ℤ, t.1 = 2 * k := by
  unfold spawnPairs at ht
  rw [List.mem_flatMap] at ht
  obtain ⟨tx, htx, hin⟩ := ht
  rw [List.mem_map] at htx hin
  obtain ⟨k, _, rfl⟩ := htx
  obtain ⟨ty, _, rfl⟩ := hin
  exact ⟨Int.ofNat k, rfl⟩

theorem spawnStep_parity {P : Params} {ch : GenChoices} {g : Grid} {t : ℤ × ℤ}
    (htx : ∃ k : ℤ, t.1 = 2 * k)
    (hg : GridParity g (parityTarget P.width)) :
    GridParity (spawnStep P ch g t) (parityTarget P.width) := by
  obtain ⟨k, hk⟩ := htx
  unfold spawnStep
  simp only []
  split
  · split
    · refine GridParity_gridSet hg ?_
      unfold parityTarget
      omega
    · exact hg
  · split
    · refine GridParity_gridSet hg ?_
      unfold parityTarget
      omega
    · exact hg

theorem spawnFold_parity {P : Params} {ch : GenChoices} (ps : List (ℤ × ℤ))
    (hmem : ∀ q ∈ ps, ∃ k : ℤ, q.1 = 2 * k) {g : Grid}
    (hg : GridParity g (parityTarget P.width)) :
    GridParity (ps.foldl (spawnStep P ch) g) (parityTarget P.width) := by
  induction ps generalizing g with
  | nil => exact hg
  | cons p rest ih =>
    rw [List.foldl_cons]
    exact ih (fun q hq => hmem q (List.mem_cons_of_mem _ hq))
      (spawnStep_parity (hmem p (List.mem_cons_self _ _)) hg)

theorem spawnPhase_parity (P : Params) (ch : GenChoices) :
    GridParity (spawnPhase P ch) (parityTarget P.width) := by
  unfold spawnPhase
  refine spawnFold_parity _ (fun q hq => mem_spawnPairs_even hq) ?_
  intro y x hne
  rw [gridGet_emptyGrid] at hne
  exact absurd rfl hne

theorem revealAt_parity {g : Grid} {t : ℤ} (hg : GridParity g t) (p : ℤ × ℤ) :
    GridParity (revealAt g p) t := by
  unfold revealAt
  cases hc : gridGet g p.2 p.1 with
  | none => exact hg
  | some e =>
    cases e with
    | cell c =>
      refine GridParity_gridSet hg ?_
      exact hg p.2 p.1 (by rw [hc]; simp)
    | hint h => exact hg

theorem revealFold_parity (ps : List (ℤ × ℤ)) {g : Grid} {t : ℤ}
    (hg : GridParity g t) : GridParity (ps.foldl revealAt g) t := by
  induction ps generalizing g with
  | nil => exact hg
  | cons p rest ih =>
    rw [List.foldl_cons]
    exact ih (revealAt_parity hg p)

theorem revealPhase_parity {P : Params} {ch : GenChoices} {g g' : Grid} {t : ℤ}
    (hg : GridParity g t) (hrev : revealPhase P ch g = some g') :
    GridParity g' t := by
  unfold revealPhase at hrev
  split at hrev
  · rw [Option.some.injEq] at hrev
    rw [← hrev]
    exact revealFold_parity _ hg
  · exact Option.noConfusion hrev

theorem GridParity_gridSet_none {g : Grid} {t y0 x0 : ℤ}
    (hg : GridParity g t) : GridParity (gridSet g y0 x0 none) t := by
  intro y x hne
  by_cases h : y = y0 ∧ x = x0
  · rw [h.1, h.2, gridGet_gridSet_none_self] at hne
    exact absurd rfl hne
  · rw [gridGet_gridSet_ne _ (by tauto)] at hne
    exact hg y x hne

theorem HintsParity_append_hint {hs : List (Option ColumnHint)} {t : ℤ}
    {h0 : ColumnHint} (hh : HintsParity hs t) (hp : (h0.x + h0.y) % 2 = t) :
    HintsParity (hs ++ [some h0]) t := by
  intro oh hmem h hoh
  rcases List.mem_append.mp hmem with hin | hin
  · exact hh oh hin h hoh
  · simp at hin
    rw [hin] at hoh
    rw [Option.some.injEq] at hoh
    rw [← hoh]
    exact hp

theorem addHintsAround_parity {l : GeneratedLevel} {t x y : ℤ}
    (hg : GridParity l.grid t) (hh : HintsParity l.column_hints t)
    (hxy : (x + y) % 2 = t) :
    GridParity (addHintsAround l x y).grid t ∧
      HintsParity (addHintsAround l x y).column_hints t := by
  unfold addHintsAround
  generalize hds : hintDirections = ds
  have hev : ∀ d ∈ ds, (d.1 + d.2.1) % 2 = 0 := by
    rw [← hds]; decide
  clear hds
  induction ds generalizing l with
  | nil => exact ⟨hg, hh⟩
  | cons d rest ih =>
    rw [List.foldl_cons]
    have hev' : ∀ d' ∈ rest, (d'.1 + d'.2.1) % 2 = 0 :=
      fun d' hd' => hev d' (List.mem_cons_of_mem _ hd')
    by_cases hb : inBounds (x + d.1) ∧ inBounds (y + d.2.1)
    · simp only [hb, if_true]
      by_cases hfree : gridGet l.grid (y + d.2.1) (x + d.1) = none
      · simp only [hfree, if_true]
        have hdelta := hev d (List.mem_cons_self _ _)
        refine ih ?_ ?_ hev'
        · exact GridParity_gridSet hg (by omega)
        · exact HintsParity_append_hint hh (by simp only []; omega)
      · simp only [hfree, if_false]
        exact ih hg hh hev'
    · simp only [hb, if_false]
      exact ih hg hh hev'

theorem addColumnHintsStep_parity (skipH : ℤ → ℤ → Bool) {l : GeneratedLevel}
    {t : ℤ} (p : ℤ × ℤ)
    (hg : GridParity l.grid t) (hh : HintsParity l.column_hints t) :
    GridParity (addColumnHintsStep skipH l p).grid t ∧
      HintsParity (addColumnHintsStep skipH l p).column_hints t := by
  unfold addColumnHintsStep
  cases hc : gridGet l.grid p.1 p.2 with
  | none => exact ⟨hg, hh⟩
  | some e =>
    cases e with
    | cell c =>
      by_cases hs : skipH p.2 p.1
      · simp only [hs, if_true]
        exact ⟨hg, hh⟩
      · simp only [hs, if_false]
        exact addHintsAround_parity hg hh (hg p.1 p.2 (by rw [hc]; simp))
    | hint h => exact ⟨hg, hh⟩

theorem add_column_hints_parity (skipH : ℤ → ℤ → Bool) (l : GeneratedLevel)
    {t : ℤ} (hg : GridParity l.grid t) (hh : HintsParity l.column_hints t) :
    GridParity (add_column_hints skipH l).grid t ∧
      HintsParity (add_column_hints skipH l).column_hints t := by
  unfold add_column_hints
  generalize coords33 = coords
  induction coords generalizing l with
  | nil => exact ⟨hg, hh⟩
  | cons p rest ih =>
    rw [List.foldl_cons]
    have hstep := addColumnHintsStep_parity skipH (l := l) p hg hh
    exact ih _ hstep.1 hstep.2

theorem removeHint_occupied {l : GeneratedLevel} {h : ColumnHint} {y x : ℤ}
    (hne : gridGet (removeHintAndLine l h).grid y x ≠ none) :
    gridGet l.grid y x ≠ none := by
  have : (removeHintAndLine l h).grid
      = gridSet ((get_line_cells l.grid h.x h.y h.direction).foldl
          (fun g' p => gridSet g' p.2 p.1 none) l.grid) h.y h.x none := rfl
  rw [this] at hne
  by_cases hp : y = h.y ∧ x = h.x
  · rw [hp.1, hp.2, gridGet_gridSet_none_self] at hne
    exact absurd rfl hne
  · rw [gridGet_gridSet_ne _ (by tauto), gridGet_clearFold] at hne
    split at hne
    · exact absurd rfl hne
    · exact hne

theorem removeHintAndLine_parity {l : GeneratedLevel} {h : ColumnHint} {t : ℤ}
    (hg : GridParity l.grid t) (hh : HintsParity l.column_hints t) :
    GridParity (removeHintAndLine l h).grid t ∧
      HintsParity (removeHintAndLine l h).column_hints t := by
  constructor
  · intro y x hne
    exact hg y x (removeHint_occupied hne)
  · intro oh hmem h' hoh
    exact hh oh (List.mem_of_mem_erase hmem) h' hoh

theorem removeLoop_parity (pick : ℕ → ℕ) {t : ℤ} (n : ℕ) {l : GeneratedLevel}
    (hg : GridParity l.grid t) (hh : HintsParity l.column_hints t) :
    GridParity (removeLoop pick n l).grid t ∧
      HintsParity (removeLoop pick n l).column_hints t := by
  induction n generalizing l with
  | zero => exact ⟨hg, hh⟩
  | succ m ih =>
    unfold removeLoop
    split
    · exact ⟨hg, hh⟩
    · split
      · rename_i h _
        have hstep := removeHintAndLine_parity (h := h) hg hh
        exact ih hstep.1 hstep.2
      · exact ih hg hh

theorem remove_random_parity (pick : ℕ → ℕ) (n : ℕ) (l : GeneratedLevel) {t : ℤ}
    (hg : GridParity l.grid t) (hh : HintsParity l.column_hints t) :
    GridParity (remove_random_column_hint pick n l).grid t ∧
      HintsParity (remove_random_column_hint pick n l).column_hints t := by
  unfold remove_random_column_hint
  split
  · exact ⟨hg, hh⟩
  · exact removeLoop_parity _ n hg hh


theorem Dir.delta_even (d : Dir) : (d.delta.1 + d.delta.2) % 2 = 0 := by
  cases d <;> decide

theorem moveLoop_parity {t : ℤ} (fuel : ℕ) {g : Grid} {h : ColumnHint}
    (hg : GridParity g t) (hp : (h.x + h.y) % 2 = t) :
    ∀ g' h' r, moveLoop g h fuel = (g', h', r) →
      GridParity g' t ∧ (h'.x + h'.y) % 2 = t := by
  induction fuel generalizing g h with
  | zero =>
    intro g' h' r heq
    unfold moveLoop at heq
    rw [Prod.mk.injEq, Prod.mk.injEq] at heq
    rw [← heq.1, ← heq.2.1]
    exact ⟨hg, hp⟩
  | succ m ih =>
    intro g' h' r heq
    unfold moveLoop at heq
    split at heq
    · rename_i hb
      split at heq
      · refine ih ?_ ?_ g' h' r heq
        · refine GridParity_gridSet (GridParity_gridSet_none hg) ?_
          have := Dir.delta_even h.direction
          omega
        · simp only []
          have := Dir.delta_even h.direction
          omega
      · rw [Prod.mk.injEq, Prod.mk.injEq] at heq
        rw [← heq.1, ← heq.2.1]
        exact ⟨GridParity_gridSet_none hg, hp⟩
      · rw [Prod.mk.injEq, Prod.mk.injEq] at heq
        rw [← heq.1, ← heq.2.1]
        exact ⟨hg, hp⟩
    · rw [Prod.mk.injEq, Prod.mk.injEq] at heq
      rw [← heq.1, ← heq.2.1]
      exact ⟨hg, hp⟩

theorem HintsParity_set {hs : List (Option ColumnHint)} {t : ℤ} {i : ℕ}
    {h0 : ColumnHint} (hh : HintsParity hs t) (hp : (h0.x + h0.y) % 2 = t) :
    HintsParity (hs.set i (some h0)) t := by
  intro oh hmem h hoh
  rcases List.mem_or_eq_of_mem_set hmem with hin | hin
  · exact hh oh hin h hoh
  · rw [hin] at hoh
    rw [Option.some.injEq] at hoh
    rw [← hoh]
    exact hp

theorem recheckStep_parity {s : RecheckState} {t : ℤ} (i : ℕ)
    (hg : GridParity s.grid t) (hh : HintsParity s.hints t) :
    GridParity (recheckStep s i).grid t ∧ HintsParity (recheckStep s i).hints t := by
  unfold recheckStep
  cases hget : s.hints.get? i with
  | none => exact ⟨hg, hh⟩
  | some oh =>
    cases oh with
    | none => exact ⟨hg, hh⟩
    | some h =>
      have hmem : some h ∈ s.hints := by
        rw [List.get?_eq_getElem?] at hget
        exact List.getElem?_mem hget
      have hp : (h.x + h.y) % 2 = t := hh (some h) hmem h rfl
      by_cases hhex : get_hex_cells_in_line s.grid h.x h.y h.direction = []
      · simp only [hhex, if_true]
        exact ⟨GridParity_gridSet_none hg, hh⟩
      · simp only [hhex, if_false]
        cases hmv : moveLoop s.grid h 3 with
        | mk g' rest =>
          cases rest with
          | mk h' r =>
            have hml := moveLoop_parity 3 hg hp g' h' r hmv
            cases r with
            | true =>
              simp only []
              exact ⟨hml.1, HintsParity_set hh hml.2⟩
            | false =>
              simp only []
              refine ⟨hml.1, ?_⟩
              exact HintsParity_set (HintsParity_set hh hml.2) hml.2

theorem mem_foldl_erase {hs : List (Option ColumnHint)} {rs : List ColumnHint}
    {q : Option ColumnHint}
    (hq : q ∈ rs.foldl (fun hs' h => hs'.erase (some h)) hs) : q ∈ hs := by
  induction rs generalizing hs with
  | nil => exact hq
  | cons r rest ih =>
    rw [List.foldl_cons] at hq
    exact List.mem_of_mem_erase (ih hq)

theorem recheck_hints_parity (l : GeneratedLevel) {t : ℤ}
    (hg : GridParity l.grid t) (hh : HintsParity l.column_hints t) :
    GridParity (recheck_hints l).grid t ∧
      HintsParity (recheck_hints l).column_hints t := by
  unfold recheck_hints
  simp only []
  have hfold : ∀ (idxs : List ℕ) (s : RecheckState), GridParity s.grid t →
      HintsParity s.hints t →
      GridParity (idxs.foldl recheckStep s).grid t ∧
        HintsParity (idxs.foldl recheckStep s).hints t := by
    intro idxs
    induction idxs with
    | nil => exact fun s hg' hh' => ⟨hg', hh'⟩
    | cons i rest ih =>
      intro s hg' hh'
      rw [List.foldl_cons]
      have hstep := recheckStep_parity i hg' hh'
      exact ih _ hstep.1 hstep.2
  have hres := hfold (List.range l.column_hints.length) ⟨l.grid, l.column_hints, []⟩ hg hh
  refine ⟨hres.1, ?_⟩
  intro oh hmem h hoh
  exact hres.2 oh (mem_foldl_erase hmem) h hoh

theorem setBlackStep_occupied {g : Grid} {p : ℤ × ℤ} {y x : ℤ}
    (hne : gridGet (setBlackStep g p) y x ≠ none) : gridGet g y x ≠ none := by
  unfold setBlackStep at hne
  cases hc : gridGet g p.1 p.2 with
  | none => rw [hc] at hne; exact hne
  | some e =>
    cases e with
    | cell c =>
      rw [hc] at hne
      by_cases h1 : c.is_blue = true ∨ c.info_type = '.'
      · simp only [h1, if_true] at hne
        exact hne
      · simp only [h1, if_false] at hne
        by_cases h2 : (blueNeighbors g p.2 p.1).length > 1
        · simp only [h2, if_true] at hne
          by_cases hp : y = p.1 ∧ x = p.2
          · rw [hp.1, hp.2, hc]
            simp
          · rw [gridGet_gridSet_ne _ (by tauto)] at hne
            exact hne
        · simp only [h2, if_false] at hne
          exact hne
    | hint h => rw [hc] at hne; exact hne

theorem set_black_parity {g : Grid} {t : ℤ} (hg : GridParity g t) :
    GridParity (set_black_cell_info_types g) t := by
  unfold set_black_cell_info_types
  generalize coords33 = coords
  induction coords generalizing g with
  | nil => exact hg
  | cons p rest ih =>
    rw [List.foldl_cons]
    refine ih ?_
    intro y x hne
    exact hg y x (setBlackStep_occupied hne)

theorem GeneratedLevel.grid_mk (a : Grid) (b : List (Option ColumnHint))
    (c d : String) : (GeneratedLevel.mk a b c d).grid = a := rfl

theorem GeneratedLevel.column_hints_mk (a : Grid) (b : List (Option ColumnHint))
    (c d : String) : (GeneratedLevel.mk a b c d).column_hints = b := rfl

theorem GeneratedLevel.title_mk (a : Grid) (b : List (Option ColumnHint))
    (c d : String) : (GeneratedLevel.mk a b c d).title = c := rfl

theorem GeneratedLevel.author_mk (a : Grid) (b : List (Option ColumnHint))
    (c d : String) : (GeneratedLevel.mk a b c d).author = d := rfl

theorem setBlackOnLevel_grid (l : GeneratedLevel) :
    (setBlackOnLevel l).grid = set_black_cell_info_types l.grid := by
  unfold setBlackOnLevel
  exact GeneratedLevel.grid_mk (set_black_cell_info_types l.grid)
    l.column_hints l.title l.author

theorem setBlackOnLevel_column_hints (l : GeneratedLevel) :
    (setBlackOnLevel l).column_hints = l.column_hints := by
  unfold setBlackOnLevel
  exact GeneratedLevel.column_hints_mk (set_black_cell_info_types l.grid)
    l.column_hints l.title l.author

theorem filterMap_eq_singleton {α β : Type} {f : α → Option β}
    {l : List α} (p0 : α) (v : β)
    (hnd : l.Nodup) (hmem : p0 ∈ l)
    (h0 : f p0 = some v)
    (ho : ∀ p ∈ l, p ≠ p0 → f p = none) :
    l.filterMap f = [v] := by
  induction l with
  | nil => exact absurd hmem (List.not_mem_nil p0)
  | cons a t ih =>
    have hnd' := List.nodup_cons.mp hnd
    by_cases ha : a = p0
    · subst ha
      rw [List.filterMap_cons, h0]
      have hnone : ∀ p ∈ t, f p = none := by
        intro p hp
        refine ho p (List.mem_cons_of_mem _ hp) ?_
        intro hpa
        exact hnd'.1 (hpa ▸ hp)
      rw [List.filterMap_eq_nil_iff.mpr hnone]
    · rcases List.mem_cons.mp hmem with rfl | hmem'
      · exact absurd rfl ha
      · rw [List.filterMap_cons, ho a (List.mem_cons_self _ _) ha]
        exact ih hnd'.2 hmem'
          (fun p hp hne => ho p (List.mem_cons_of_mem _ hp) hne)

theorem spawnPhase_P0 : spawnPhase P0 ch0 = g0spawn := by
  unfold spawnPhase
  rw [show spawnPairs P0.width P0.height = [((0 : ℤ), (0 : ℤ))] from by decide]
  rw [List.foldl_cons, List.foldl_nil]
  decide

theorem g0spawn_get :
    gridGet g0spawn 15 16 = some (.cell ⟨16, 15, false, false, '+'⟩) := by
  decide

theorem g0spawn_get_ne (p : ℤ × ℤ) (hne : p ≠ ((15 : ℤ), (16 : ℤ))) :
    gridGet g0spawn p.1 p.2 = none := by
  unfold g0spawn
  rw [gridGet_gridSet_ne]
  · exact gridGet_emptyGrid p.1 p.2
  · by_contra hcon
    push_neg at hcon
    exact hne (Prod.ext_iff.mpr ⟨hcon.1, hcon.2⟩)

theorem nonBlue_g0 : nonBlueCellPositions g0spawn = [((16 : ℤ), (15 : ℤ))] := by
  unfold nonBlueCellPositions
  refine filterMap_eq_singleton ((15 : ℤ), (16 : ℤ)) ((16 : ℤ), (15 : ℤ))
    coords33_nodup (by rw [mem_coords33]; norm_num) (by decide) ?_
  intro p hp hne
  show (match gridGet g0spawn p.1 p.2 with
    | some (.cell c) => if c.is_blue then none else some (p.2, p.1)
    | _ => none) = none
  rw [g0spawn_get_ne p hne]

theorem revealPhase_P0 : revealPhase P0 ch0 g0spawn = some g0rev := by
  unfold revealPhase
  rw [nonBlue_g0]
  rw [if_pos (by norm_num [P0])]
  have hs : ch0.sample [((16 : ℤ), (15 : ℤ))]
      (max 1 ([((16 : ℤ), (15 : ℤ))].length / P0.reveal_density))
      = [((16 : ℤ), (15 : ℤ))] := by decide
  rw [hs, List.foldl_cons, List.foldl_nil]
  show some (revealAt g0spawn (16, 15)) = some g0rev
  unfold revealAt
  show some (match gridGet g0spawn 15 16 with
    | some (.cell c) => gridSet g0spawn 15 16 (some (.cell { c with revealed := true }))
    | _ => g0spawn) = some g0rev
  rw [g0spawn_get]
  rfl

theorem add_column_hints_skip_all (skipH : ℤ → ℤ → Bool)
    (hs : ∀ x y, skipH x y = true) (l : GeneratedLevel) :
    add_column_hints skipH l = l := by
  unfold add_column_hints
  refine foldl_congr_id ?_
  intro p hp s
  unfold addColumnHintsStep
  cases hg : gridGet s.grid p.1 p.2 with
  | none => rfl
  | some e =>
    cases e with
    | cell c => rw [hs, if_pos rfl]
    | hint h => rfl

theorem remove_random_zero (pick : ℕ → ℕ) (l : GeneratedLevel) :
    remove_random_column_hint pick 0 l = l := by
  unfold remove_random_column_hint
  split <;> rfl

theorem recheck_hints_nil (l : GeneratedLevel) (h : l.column_hints = []) :
    recheck_hints l = l := by
  cases l with
  | mk a b c d =>
    rw [GeneratedLevel.column_hints_mk] at h
    subst h
    rfl

theorem create_pattern_P0 : create_pattern P0 ch0 = some l0final := by
  unfold create_pattern
  rw [spawnPhase_P0, revealPhase_P0]
  show some (setBlackOnLevel (recheck_hints (remove_random_column_hint ch0.pick
    ch0.removenum (add_column_hints ch0.skipHint
      { GeneratedLevel.init with grid := g0rev })))) = some l0final
  rw [add_column_hints_skip_all ch0.skipHint (fun x y => rfl)]
  rw [show ch0.removenum = 0 from rfl]
  rw [remove_random_zero]
  rw [recheck_hints_nil _ rfl]
  rfl

/-- C5 (amended): every occupied grid slot of a level produced by
`create_pattern`, and every hint in its hint list, lies on the single
parity class `parityTarget width = ((-width // 2) % 2)` — the parity is
constant across the pipeline but is NOT always even: it is odd whenever
`(width + 1) / 2` is odd (e.g. for the default `width = 10`, and for
`width = 2`). -/
theorem C5_occupied_parity (P : Params) (ch : GenChoices) (l : GeneratedLevel)
    (hl : create_pattern P ch = some l) :
    GridParity l.grid (parityTarget P.width) ∧
    HintsParity l.column_hints (parityTarget P.width) := by
  unfold create_pattern at hl
  cases hrev : revealPhase P ch (spawnPhase P ch) with
  | none => rw [hrev] at hl; exact Option.noConfusion hl
  | some g2 =>
    rw [hrev] at hl
    injection hl with hl
    have hg2 : GridParity g2 (parityTarget P.width) :=
      revealPhase_parity (spawnPhase_parity P ch) hrev
    have hinit : HintsParity ({ GeneratedLevel.init with grid := g2 }).column_hints
        (parityTarget P.width) := by
      intro oh hmem
      simp [GeneratedLevel.init] at hmem
    have h3 := add_column_hints_parity ch.skipHint
      { GeneratedLevel.init with grid := g2 } hg2 hinit
    have h4 := remove_random_parity ch.pick ch.removenum
      (add_column_hints ch.skipHint { GeneratedLevel.init with grid := g2 })
      h3.1 h3.2
    have h5 := recheck_hints_parity
      (remove_random_column_hint ch.pick ch.removenum
        (add_column_hints ch.skipHint { GeneratedLevel.init with grid := g2 }))
      h4.1 h4.2
    subst hl
    rw [setBlackOnLevel_grid, setBlackOnLevel_column_hints]
    exact ⟨set_black_parity h5.1, h5.2⟩

theorem spawnPhase_P8 : spawnPhase P0 ch8 = g8spawn := by
  unfold spawnPhase
  rw [show spawnPairs P0.width P0.height = [((0 : ℤ), (0 : ℤ))] from by decide]
  rw [List.foldl_cons, List.foldl_nil]
  decide

theorem g8spawn_get_ne (p : ℤ × ℤ) (hne : p ≠ ((15 : ℤ), (16 : ℤ))) :
    gridGet g8spawn p.1 p.2 = none := by
  unfold g8spawn
  rw [gridGet_gridSet_ne]
  · exact gridGet_emptyGrid p.1 p.2
  · by_contra hcon
    push_neg at hcon
    exact hne (Prod.ext_iff.mpr ⟨hcon.1, hcon.2⟩)

theorem nonBlue_g8 : nonBlueCellPositions g8spawn = [] := by
  unfold nonBlueCellPositions
  refine List.filterMap_eq_nil_iff.mpr ?_
  intro p hp
  by_cases hpe : p = ((15 : ℤ), (16 : ℤ))
  · subst hpe
    decide
  · show (match gridGet g8spawn p.1 p.2 with
      | some (.cell c) => if c.is_blue then none else some (p.2, p.1)
      | _ => none) = none
    rw [g8spawn_get_ne p hpe]

/-- C8 fails on the code: a run whose spawned pattern consists of Marked
cells only (width 2, height 1, every spawn draw a Marked cell) leaves
zero non-Marked cells, and the reveal step's
`random.sample(all_cells, max(1, 0 // reveal_density))` asks for 1
element from an empty population, raising `ValueError` — modelled as the
`none` escape of `create_pattern` — instead of completing normally. -/
theorem C8_reveal_sample_raises :
    nonBlueCellPositions (spawnPhase P0 ch8) = [] ∧
    create_pattern P0 ch8 = none := by
  refine ⟨by rw [spawnPhase_P8]; exact nonBlue_g8, ?_⟩
  unfold create_pattern
  rw [spawnPhase_P8]
  have hrev : revealPhase P0 ch8 g8spawn = none := by
    unfold revealPhase
    rw [nonBlue_g8]
    rw [if_neg (by norm_num)]
  rw [hrev]

/-- Counterexample to C5 as stated: the `width = 2`, `height = 1` run
`create_pattern P0 ch0` places its (only) cell at `(x, y) = (16, 15)`,
an occupied lattice position with `x + y = 31` odd. -/
theorem C5_counterexample :
    create_pattern P0 ch0 = some l0final ∧
    gridGet l0final.grid 15 16 ≠ none ∧ ¬ ((16 : ℤ) + 15) % 2 = 0 := by
  refine ⟨create_pattern_P0, ?_, by decide⟩
  have hw : Grid.WF g0rev :=
    gridSet_WF (gridSet_WF emptyGrid_WF 15 16 _) 15 16 _
  have hc : gridGet g0rev 15 16
      = some (.cell ⟨16, 15, false, true, '+'⟩) := by decide
  have hlg : l0final.grid = set_black_cell_info_types g0rev := by
    unfold l0final
    exact GeneratedLevel.grid_mk (set_black_cell_info_types g0rev) []
      "Generated Level" "Generator"
  rw [hlg, set_black_pointwise hw hc]
  decide

/-- Witness for C5 (amended): the hypothesis of `C5_occupied_parity`
holds at the concrete run `create_pattern P0 ch0 = some l0final`. -/
theorem C5_witness :
    GridParity l0final.grid (parityTarget P0.width) ∧
    HintsParity l0final.column_hints (parityTarget P0.width) :=
  C5_occupied_parity P0 ch0 l0final create_pattern_P0

theorem revealAt_WF {g : Grid} (hw : g.WF) (p : ℤ × ℤ) : (revealAt g p).WF := by
  unfold revealAt
  cases hc : gridGet g p.2 p.1 with
  | none => exact hw
  | some e =>
    cases e with
    | cell c => exact gridSet_WF hw _ _ _
    | hint h => exact hw

theorem gridGet_revealAt_self {g : Grid} (hw : g.WF) {p : ℤ × ℤ} {c : HexCell}
    (hc : gridGet g p.2 p.1 = some (.cell c)) :
    gridGet (revealAt g p) p.2 p.1 = some (.cell { c with revealed := true }) := by
  unfold revealAt
  rw [hc]
  have hb := gridGet_bounds hw hc
  exact gridGet_gridSet_self hw hb.1 hb.2 _

theorem gridGet_revealAt_ne {g : Grid} {p : ℤ × ℤ} {y x : ℤ}
    (h : y ≠ p.2 ∨ x ≠ p.1) :
    gridGet (revealAt g p) y x = gridGet g y x := by
  unfold revealAt
  cases hc : gridGet g p.2 p.1 with
  | none => rfl
  | some e =>
    cases e with
    | cell c => exact gridGet_gridSet_ne _ h
    | hint hh => rfl

theorem reveal_fold_ne {S : List (ℤ × ℤ)} {g : Grid} {y x : ℤ}
    (h : ((x, y) : ℤ × ℤ) ∉ S) :
    gridGet (S.foldl revealAt g) y x = gridGet g y x := by
  induction S generalizing g with
  | nil => rfl
  | cons p t ih =>
    rw [List.foldl_cons]
    rw [ih fun hm => h (List.mem_cons_of_mem _ hm)]
    refine gridGet_revealAt_ne ?_
    by_contra hcon
    push_neg at hcon
    exact h (List.mem_cons.mpr (Or.inl (Prod.ext_iff.mpr ⟨hcon.2, hcon.1⟩)))

theorem reveal_fold_mem {S : List (ℤ × ℤ)} {g : Grid} (hw : g.WF)
    (hnd : S.Nodup) :
    ∀ p ∈ S, ∀ c : HexCell, gridGet g p.2 p.1 = some (.cell c) →
      gridGet (S.foldl revealAt g) p.2 p.1
        = some (.cell { c with revealed := true }) := by
  induction S generalizing g with
  | nil => intro p hp; exact absurd hp (List.not_mem_nil p)
  | cons q t ih =>
    intro p hp c hc
    have hnd' := List.nodup_cons.mp hnd
    rw [List.foldl_cons]
    rcases List.mem_cons.mp hp with rfl | hpt
    · have h1 := gridGet_revealAt_self hw hc
      rw [reveal_fold_ne fun hm => hnd'.1 (by simpa using hm)]
      exact h1
    · have hpq : p ≠ q := fun he => hnd'.1 (he ▸ hpt)
      have hge : gridGet (revealAt g q) p.2 p.1 = some (.cell c) := by
        rw [gridGet_revealAt_ne ?_]
        · exact hc
        · by_contra hcon
          push_neg at hcon
          exact hpq (Prod.ext_iff.mpr ⟨hcon.2, hcon.1⟩)
      exact ih (revealAt_WF hw q) hnd'.2 p hpt c hge

theorem revealedPositions_nodup (g : Grid) : (revealedPositions g).Nodup := by
  unfold revealedPositions
  refine List.Nodup.map ?_ (List.Nodup.filter _ coords33_nodup)
  intro a b hab
  injection hab with h1 h2
  exact Prod.ext_iff.mpr ⟨h2, h1⟩

theorem mem_revealedPositions {g : Grid} {q : ℤ × ℤ} :
    q ∈ revealedPositions g ↔
      ((0 ≤ q.2 ∧ q.2 < 33) ∧ (0 ≤ q.1 ∧ q.1 < 33)) ∧
      ∃ c : HexCell, gridGet g q.2 q.1 = some (.cell c) ∧ c.revealed = true := by
  unfold revealedPositions
  rw [List.mem_map]
  constructor
  · rintro ⟨p, hp, rfl⟩
    rw [List.mem_filter] at hp
    obtain ⟨hpc, hpred⟩ := hp
    rw [mem_coords33] at hpc
    refine ⟨⟨hpc.1, hpc.2⟩, ?_⟩
    cases hm : gridGet g p.1 p.2 with
    | none => rw [hm] at hpred; simp at hpred
    | some e =>
      cases e with
      | cell c =>
        refine ⟨c, rfl, ?_⟩
        rw [hm] at hpred
        simpa using hpred
      | hint hh => rw [hm] at hpred; simp at hpred
  · rintro ⟨hb, c, hc, hrev⟩
    refine ⟨(q.2, q.1), ?_, rfl⟩
    rw [List.mem_filter]
    refine ⟨mem_coords33.mpr ⟨hb.1, hb.2⟩, ?_⟩
    have hc' : gridGet g ((q.2, q.1) : ℤ × ℤ).1 ((q.2, q.1) : ℤ × ℤ).2
        = some (.cell c) := hc
    show (match gridGet g ((q.2, q.1) : ℤ × ℤ).1 ((q.2, q.1) : ℤ × ℤ).2 with
      | some (.cell c) => c.revealed
      | _ => false) = true
    rw [hc']
    simpa using hrev

theorem mem_nonBlueCellPositions {g : Grid} {q : ℤ × ℤ}
    (h : q ∈ nonBlueCellPositions g) :
    ((0 ≤ q.2 ∧ q.2 < 33) ∧ (0 ≤ q.1 ∧ q.1 < 33)) ∧
    ∃ c : HexCell, gridGet g q.2 q.1 = some (.cell c) ∧ c.is_blue = false := by
  unfold nonBlueCellPositions at h
  rcases List.mem_filterMap.mp h with ⟨a, ha, hfa⟩
  cases hm : gridGet g a.1 a.2 with
  | none => rw [hm] at hfa; simp at hfa
  | some e =>
    cases e with
    | cell c =>
      rw [hm] at hfa
      by_cases hbl : c.is_blue
      · simp [hbl] at hfa
      · simp only [hbl] at hfa
        simp at hfa
        rw [mem_coords33] at ha
        subst hfa
        exact ⟨⟨ha.1, ha.2⟩, c, hm, by simpa using hbl⟩
    | hint hh => rw [hm] at hfa; simp at hfa

theorem revealedPositions_fold {g : Grid} {S : List (ℤ × ℤ)} (hw : g.WF)
    (hnr : NoRevealed g) (hnd : S.Nodup)
    (hS : ∀ p ∈ S, p ∈ nonBlueCellPositions g) :
    ∀ q, q ∈ revealedPositions (S.foldl revealAt g) ↔ q ∈ S := by
  intro q
  constructor
  · intro hq
    rcases mem_revealedPositions.mp hq with ⟨hbq, c, hc, hrev⟩
    by_contra hqS
    rw [reveal_fold_ne fun hm => hqS (by simpa using hm)] at hc
    have := hnr q.2 q.1 c hc
    rw [this] at hrev
    exact Bool.noConfusion hrev
  · intro hqS
    rcases mem_nonBlueCellPositions (hS q hqS) with ⟨hbq, c, hc, hblue⟩
    have hres := reveal_fold_mem hw hnd q hqS c hc
    exact mem_revealedPositions.mpr ⟨hbq, _, hres, rfl⟩

/-- C9: when the spawned pattern holds `n ≥ 1` non-Marked cells and the
`random.sample` draw is a valid sample of its requested size (right
length, distinct elements, all drawn from the population), the reveal
step succeeds and reveals exactly `max 1 (n / reveal_density)` cells,
and every revealed cell of the resulting grid is non-Marked — no Marked
cell is ever revealed by the generator. -/
theorem C9_reveal_count (P : Params) (ch : GenChoices) (g : Grid)
    (hw : g.WF) (hnr : NoRevealed g)
    (hn : 1 ≤ (nonBlueCellPositions g).length)
    (hlen : (ch.sample (nonBlueCellPositions g)
        (max 1 ((nonBlueCellPositions g).length / P.reveal_density))).length
      = max 1 ((nonBlueCellPositions g).length / P.reveal_density))
    (hnd : (ch.sample (nonBlueCellPositions g)
        (max 1 ((nonBlueCellPositions g).length / P.reveal_density))).Nodup)
    (hsub : ∀ p ∈ ch.sample (nonBlueCellPositions g)
        (max 1 ((nonBlueCellPositions g).length / P.reveal_density)),
      p ∈ nonBlueCellPositions g) :
    revealPhase P ch g = some ((ch.sample (nonBlueCellPositions g)
      (max 1 ((nonBlueCellPositions g).length / P.reveal_density))).foldl
        revealAt g) ∧
    (revealedPositions ((ch.sample (nonBlueCellPositions g)
      (max 1 ((nonBlueCellPositions g).length / P.reveal_density))).foldl
        revealAt g)).length
      = max 1 ((nonBlueCellPositions g).length / P.reveal_density) ∧
    ∀ y x : ℤ, ∀ c : HexCell,
      gridGet ((ch.sample (nonBlueCellPositions g)
        (max 1 ((nonBlueCellPositions g).length / P.reveal_density))).foldl
          revealAt g) y x
        = some (.cell c) → c.revealed = true → c.is_blue = false := by
  refine ⟨?_, ?_, ?_⟩
  · unfold revealPhase
    rw [if_pos (max_le hn (Nat.div_le_self _ _))]
  · have hiff := revealedPositions_fold hw hnr hnd hsub
    have hperm := (List.perm_ext_iff_of_nodup
      (revealedPositions_nodup _) hnd).mpr hiff
    rw [hperm.length_eq, hlen]
  · intro y x c hc hrev
    by_cases hxy : ((x, y) : ℤ × ℤ) ∈ ch.sample (nonBlueCellPositions g)
        (max 1 ((nonBlueCellPositions g).length / P.reveal_density))
    · rcases mem_nonBlueCellPositions (hsub _ hxy) with ⟨hb0, c0, hc0, hbl0⟩
      have hres := reveal_fold_mem hw hnd _ hxy c0 hc0
      have hres' : gridGet ((ch.sample (nonBlueCellPositions g)
          (max 1 ((nonBlueCellPositions g).length / P.reveal_density))).foldl
            revealAt g) y x
          = some (.cell { c0 with revealed := true }) := hres
      rw [hc] at hres'
      injection hres' with h1
      injection h1 with h2
      rw [h2]
      simpa using hbl0
    · rw [reveal_fold_ne hxy] at hc
      have := hnr y x c hc
      rw [this] at hrev
      exact Bool.noConfusion hrev

theorem g0spawn_WF : g0spawn.WF := gridSet_WF emptyGrid_WF 15 16 _

theorem norev_g0 : NoRevealed g0spawn := by
  intro y x c hc
  by_cases hxy : ((y, x) : ℤ × ℤ) = ((15 : ℤ), (16 : ℤ))
  · have h15 : y = 15 := congrArg Prod.fst hxy
    have h16 : x = 16 := congrArg Prod.snd hxy
    subst h15
    subst h16
    rw [g0spawn_get] at hc
    injection hc with h1
    injection h1 with h2
    rw [← h2]
  · have hno : gridGet g0spawn y x = none := g0spawn_get_ne (y, x) hxy
    rw [hno] at hc
    exact Option.noConfusion hc

/-- Witness for C9: `P0`, `ch0` and the spawn-phase grid `g0spawn`
(one non-Marked cell) satisfy every hypothesis of `C9_reveal_count`. -/
theorem C9_witness :
    revealPhase P0 ch0 g0spawn = some ((ch0.sample (nonBlueCellPositions g0spawn)
      (max 1 ((nonBlueCellPositions g0spawn).length / P0.reveal_density))).foldl
        revealAt g0spawn) ∧
    (revealedPositions ((ch0.sample (nonBlueCellPositions g0spawn)
      (max 1 ((nonBlueCellPositions g0spawn).length / P0.reveal_density))).foldl
        revealAt g0spawn)).length
      = max 1 ((nonBlueCellPositions g0spawn).length / P0.reveal_density) ∧
    ∀ y x : ℤ, ∀ c : HexCell,
      gridGet ((ch0.sample (nonBlueCellPositions g0spawn)
        (max 1 ((nonBlueCellPositions g0spawn).length / P0.reveal_density))).foldl
          revealAt g0spawn) y x
        = some (.cell c) → c.revealed = true → c.is_blue = false :=
  C9_reveal_count P0 ch0 g0spawn g0spawn_WF norev_g0
    (by rw [nonBlue_g0]; decide)
    (by rw [nonBlue_g0]; decide)
    (by rw [nonBlue_g0]; decide)
    (by rw [nonBlue_g0]; decide)

theorem tokenAt_length (g : Grid) (y x : ℤ) : (tokenAt g y x).length = 2 := by
  unfold tokenAt
  cases hm : gridGet g y x with
  | none => rfl
  | some e =>
    cases e with
    | cell c => rfl
    | hint h => rfl

theorem join_length (L : List String) :
    (String.join L).length = (L.map String.length).sum := by
  have h : ∀ s : String, (L.foldl (· ++ ·) s).length
      = s.length + (L.map String.length).sum := by
    induction L with
    | nil => intro s; simp
    | cons a t ih =>
      intro s
      rw [List.foldl_cons, ih (s ++ a)]
      rw [String.length_append]
      simp
      omega
  simpa using h ""

theorem rowString_length (g : Grid) (y : ℤ) : (rowString g y).length = 66 := by
  unfold rowString
  rw [join_length, List.map_map]
  have hrep : (List.range 33).map (String.length ∘ fun x => tokenAt g y (Int.ofNat x))
      = List.replicate 33 2 := by
    refine List.eq_replicate_iff.mpr ⟨by simp, ?_⟩
    intro b hb
    rcases List.mem_map.mp hb with ⟨x, hx, rfl⟩
    exact tokenAt_length g y (Int.ofNat x)
  rw [hrep]
  simp [List.sum_replicate]

/-- C10: `to_level_string` joins exactly 38 lines: the literal header
`Hexcells level v1`, the title, the author, two blank lines, then the
33 grid rows, each of exactly 66 characters (33 two-character tokens in
row-major order); an empty slot encodes as `..`, an occupied cell's
token is its flag character (`o`/`O`/`x`/`X` for Empty-unrevealed,
Empty-revealed, Marked-unrevealed, Marked-revealed) followed by its
info character (in `.`, `+`, `c`, `n` for generator-produced cells),
and a hint's token is its direction character (`\`, `|` or `/`)
followed by a character in that same set. -/
theorem C10_level_string_shape (l : GeneratedLevel)
    (hinfo : ∀ y x : ℤ, ∀ c : HexCell, gridGet l.grid y x = some (.cell c) →
      c.info_type ∈ ['.', '+', 'c', 'n']) :
    to_level_string l = String.intercalate "\n" (levelLines l) ∧
    (levelLines l).length = 38 ∧
    (levelLines l).get? 0 = some "Hexcells level v1" ∧
    (levelLines l).get? 1 = some l.title ∧
    (levelLines l).get? 2 = some l.author ∧
    (levelLines l).get? 3 = some "" ∧
    (levelLines l).get? 4 = some "" ∧
    (∀ i : ℕ, i < 33 →
      (levelLines l).get? (5 + i) = some (rowString l.grid (Int.ofNat i)) ∧
      (rowString l.grid (Int.ofNat i)).length = 66) ∧
    (∀ y x : ℤ, gridGet l.grid y x = none → tokenAt l.grid y x = "..") ∧
    (∀ y x : ℤ, ∀ c : HexCell, gridGet l.grid y x = some (.cell c) →
      (tokenAt l.grid y x).data
        = [if c.is_blue then (if c.revealed then 'X' else 'x')
           else (if c.revealed then 'O' else 'o'), c.info_type] ∧
      c.info_type ∈ ['.', '+', 'c', 'n']) ∧
    (∀ y x : ℤ, ∀ h : ColumnHint, gridGet l.grid y x = some (.hint h) →
      ∃ s : Char, (tokenAt l.grid y x).data = [h.direction.toChar, s] ∧
        h.direction.toChar ∈ ['\\', '|', '/'] ∧ s ∈ ['.', '+', 'c', 'n']) := by
  refine ⟨rfl, by simp [levelLines], rfl, rfl, rfl, rfl, rfl, ?_, ?_, ?_, ?_⟩
  · intro i hi
    refine ⟨?_, rowString_length l.grid (Int.ofNat i)⟩
    unfold levelLines
    rw [List.get?_eq_getElem?]
    rw [show 5 + i = (["Hexcells level v1", l.title, l.author, "", ""]).length + i
      from by simp]
    rw [List.getElem?_append_right (by simp)]
    simp [hi]
  · intro y x h
    unfold tokenAt
    rw [h]
  · intro y x c hc
    refine ⟨?_, hinfo y x c hc⟩
    unfold tokenAt
    rw [hc]
    rfl
  · intro y x h hc
    unfold tokenAt
    rw [hc]
    unfold ColumnHint.to_string
    refine ⟨_, rfl, ?_, ?_⟩
    · cases h.direction <;> simp [Dir.toChar]
    · split
      · simp
      · split
        · simp
        · simp

/-- Witness for C10 at the freshly initialised (empty) level. -/
theorem C10_witness : (levelLines GeneratedLevel.init).length = 38 :=
  (C10_level_string_shape GeneratedLevel.init
    (fun y x c hc => absurd hc (by
      rw [show GeneratedLevel.init.grid = emptyGrid from rfl, gridGet_emptyGrid]
      exact fun h => Option.noConfusion h))).2.1

theorem generateLoop_none_iff (P : Params) (chs : ℕ → GenChoices)
    (oracle : String → Bool) (t a : String) (L : List ℕ) :
    (∀ i ∈ L, create_pattern P (chs i) ≠ none) →
    (generateLoop P chs oracle t a L = some none ↔
      ∀ i ∈ L, ∀ level, create_pattern P (chs i) = some level →
        is_solvable oracle level = false) := by
  induction L with
  | nil =>
    intro hok
    simp [generateLoop]
  | cons i0 rest ih =>
    intro hok
    cases hcp : create_pattern P (chs i0) with
    | none => exact absurd hcp (hok i0 (List.mem_cons_self _ _))
    | some level0 =>
      by_cases hs : is_solvable oracle level0 = true
      · constructor
        · intro hl
          simp only [generateLoop, hcp, hs, if_true] at hl
          exact Option.noConfusion (Option.some.inj hl)
        · intro hall
          have hfl := hall i0 (List.mem_cons_self _ _) level0 hcp
          rw [hfl] at hs
          exact Bool.noConfusion hs
      · have hs' : is_solvable oracle level0 = false := by
          rcases Bool.eq_false_or_eq_true (is_solvable oracle level0) with h | h
          · exact absurd h hs
          · exact h
        have hloop : generateLoop P chs oracle t a (i0 :: rest)
            = generateLoop P chs oracle t a rest := by
          simp [generateLoop, hcp, hs']
        rw [hloop, ih fun j hj => hok j (List.mem_cons_of_mem _ hj)]
        constructor
        · intro hall i hi level hlev
          rcases List.mem_cons.mp hi with rfl | hir
          · rw [hcp] at hlev
            have he := Option.some.inj hlev
            rw [← he]
            exact hs'
          · exact hall i hir level hlev
        · intro hall i hi level hlev
          exact hall i (List.mem_cons_of_mem _ hi) level hlev

theorem generateLoop_some_iff (P : Params) (chs : ℕ → GenChoices)
    (oracle : String → Bool) (t a : String) (L : List ℕ) (l : GeneratedLevel) :
    (∀ i ∈ L, create_pattern P (chs i) ≠ none) →
    (generateLoop P chs oracle t a L = some (some l) ↔
      ∃ L1 i L2, L = L1 ++ i :: L2 ∧
        (∀ j ∈ L1, ∀ lj, create_pattern P (chs j) = some lj →
          is_solvable oracle lj = false) ∧
        ∃ level, create_pattern P (chs i) = some level ∧
          is_solvable oracle level = true ∧
          l = set_level_metadata t a (minimize_clues P (chs i) oracle level)) := by
  induction L with
  | nil =>
    intro hok
    constructor
    · intro h
      exact Option.noConfusion (Option.some.inj h)
    · rintro ⟨L1, i, L2, h, -⟩
      exact absurd h (by cases L1 <;> simp)
  | cons i0 rest ih =>
    intro hok
    cases hcp : create_pattern P (chs i0) with
    | none => exact absurd hcp (hok i0 (List.mem_cons_self _ _))
    | some level0 =>
      by_cases hs : is_solvable oracle level0 = true
      · constructor
        · intro hl
          simp only [generateLoop, hcp, hs, if_true] at hl
          exact ⟨[], i0, rest, rfl, by simp, level0, hcp, hs,
            (Option.some.inj (Option.some.inj hl)).symm⟩
        · rintro ⟨L1, i, L2, hsplit, hfail, level, hlev, hsol, hres⟩
          cases L1 with
          | nil =>
            simp only [List.nil_append] at hsplit
            have h12 := List.cons.inj hsplit
            have he := Option.some.inj ((h12.1 ▸ hcp).symm.trans hlev)
            simp only [generateLoop, hcp, hs, if_true]
            rw [hres, ← he, ← h12.1]
          | cons j0 L1' =>
            have h12 := List.cons.inj hsplit
            have hfl := hfail j0 (List.mem_cons_self _ _) level0 (h12.1 ▸ hcp)
            rw [hfl] at hs
            exact Bool.noConfusion hs
      · have hs' : is_solvable oracle level0 = false := by
          rcases Bool.eq_false_or_eq_true (is_solvable oracle level0) with h | h
          · exact absurd h hs
          · exact h
        have hloop : generateLoop P chs oracle t a (i0 :: rest)
            = generateLoop P chs oracle t a rest := by
          simp [generateLoop, hcp, hs']
        rw [hloop, ih fun j hj => hok j (List.mem_cons_of_mem _ hj)]
        constructor
        · rintro ⟨L1, i, L2, hsplit, hfail, hrest⟩
          refine ⟨i0 :: L1, i, L2, by rw [List.cons_append, hsplit], ?_, hrest⟩
          intro j hj lj hlj
          rcases List.mem_cons.mp hj with rfl | hj'
          · rw [hcp] at hlj
            have he := Option.some.inj hlj
            rw [← he]
            exact hs'
          · exact hfail j hj' lj hlj
        · rintro ⟨L1, i, L2, hsplit, hfail, level, hlev, hsol, hres⟩
          cases L1 with
          | nil =>
            simp only [List.nil_append] at hsplit
            have h12 := List.cons.inj hsplit
            have he := Option.some.inj ((h12.1 ▸ hcp).symm.trans hlev)
            rw [← he] at hsol
            rw [hsol] at hs'
            exact Bool.noConfusion hs'
          | cons j0 L1' =>
            have h12 := List.cons.inj hsplit
            exact ⟨L1', i, L2, h12.2,
              fun j hj => hfail j (List.mem_cons_of_mem _ hj),
              level, hlev, hsol, hres⟩

/-- C2: provided no attempt's `create_pattern` raises (the modelled
exception escape), `generate` returns the "nothing produced" outcome
exactly when every one of the `max_attempts` freshly created patterns
fails its initial solvability check; and it returns a level exactly
when some attempt's pattern passes that check with every earlier
attempt failing — the returned level being that first passing pattern
minimized once and given its metadata, with no mid-minimization
retry. -/
theorem C2_generate (P : Params) (chs : ℕ → GenChoices) (oracle : String → Bool)
    (t a : String) (n : ℕ)
    (hok : ∀ i, i < n → create_pattern P (chs i) ≠ none) :
    (generate P chs oracle t a n = some none ↔
      ∀ i, i < n → ∀ level, create_pattern P (chs i) = some level →
        is_solvable oracle level = false) ∧
    ∀ l : GeneratedLevel, generate P chs oracle t a n = some (some l) ↔
      ∃ L1 i L2, List.range n = L1 ++ i :: L2 ∧
        (∀ j ∈ L1, ∀ lj, create_pattern P (chs j) = some lj →
          is_solvable oracle lj = false) ∧
        ∃ level, create_pattern P (chs i) = some level ∧
          is_solvable oracle level = true ∧
          l = set_level_metadata t a (minimize_clues P (chs i) oracle level) := by
  have hok' : ∀ i ∈ List.range n, create_pattern P (chs i) ≠ none :=
    fun i hi => hok i (List.mem_range.mp hi)
  constructor
  · unfold generate
    rw [generateLoop_none_iff P chs oracle t a (List.range n) hok']
    constructor
    · intro hall i hi level hlev
      exact hall i (List.mem_range.mpr hi) level hlev
    · intro hall i hi level hlev
      exact hall i (List.mem_range.mp hi) level hlev
  · intro l
    unfold generate
    rw [generateLoop_some_iff P chs oracle t a (List.range n) l hok']

/-- Witness for C2: one attempt with an always-false solver oracle;
`create_pattern P0 ch0` succeeds, so the hypothesis holds. -/
theorem C2_witness :
    generate P0 (fun _ => ch0) (fun _ => false) "T" "A" 1 = some none ↔
      ∀ i, i < 1 → ∀ level, create_pattern P0 ((fun _ : ℕ => ch0) i) = some level →
        is_solvable (fun _ => false) level = false :=
  (C2_generate P0 (fun _ => ch0) (fun _ => false) "T" "A" 1
    (fun _ _ h => Option.noConfusion
      ((show create_pattern P0 ch0 = some l0final from create_pattern_P0).symm.trans h))).1

theorem restore_exact_column {l : GeneratedLevel} {idx : ℕ} {h : ColumnHint}
    (hget : l.column_hints.get? idx = some (some h))
    (hocc : gridGet l.grid h.y h.x = some (.hint h)) :
    restore_clue (remove_clue l (.column idx)).2 (.column idx)
      (remove_clue l (.column idx)).1 = l := by
  have hlt : idx < l.column_hints.length := by
    by_contra hge
    rw [List.get?_eq_none.mpr (Nat.le_of_not_lt hge)] at hget
    exact Option.noConfusion hget
  have hrc : remove_clue l (.column idx)
      = (some (.hintVal h),
         { grid := gridSet l.grid h.y h.x none
           column_hints := l.column_hints.set idx none
           title := l.title
           author := l.author }) := by
    simp only [remove_clue, hget, if_pos hlt]
  rw [hrc]
  have hlt2 : idx < (l.column_hints.set idx none).length := by
    rw [List.length_set]
    exact hlt
  simp only [restore_clue, if_pos hlt2]
  rw [gridSet_gridSet, gridSet_gridGet_some hocc, List.set_set,
    list_set_of_get? hget]

theorem remove_noop_column {l : GeneratedLevel} {idx : ℕ}
    (hget : l.column_hints.get? idx = some none) :
    remove_clue l (.column idx) = (none, l) := by
  have hlt : idx < l.column_hints.length := by
    by_contra hge
    rw [List.get?_eq_none.mpr (Nat.le_of_not_lt hge)] at hget
    exact Option.noConfusion hget
  simp only [remove_clue, hget, if_pos hlt]
  rw [list_set_of_get? hget]

theorem restore_none (l : GeneratedLevel) (c : Clue) :
    restore_clue l c none = l := rfl

theorem restore_exact_flower {l : GeneratedLevel} (hw : l.grid.WF) {x y : ℤ}
    {c : HexCell} (hc : gridGet l.grid y x = some (.cell c)) :
    restore_clue (remove_clue l (.flower x y)).2 (.flower x y)
      (remove_clue l (.flower x y)).1 = l := by
  have hb := gridGet_bounds hw hc
  have hrc : remove_clue l (.flower x y)
      = (some (.info c.info_type),
         { grid := gridSet l.grid y x (some (.cell { c with info_type := '.' }))
           column_hints := l.column_hints
           title := l.title
           author := l.author }) := by
    simp only [remove_clue, hc]
  rw [hrc]
  have hget2 := gridGet_gridSet_self hw hb.1 hb.2
    (some (Entity.cell { c with info_type := '.' }))
  simp only [restore_clue, hget2]
  rw [gridSet_gridSet]
  rw [gridSet_gridGet_some (show gridGet l.grid y x
    = some (Entity.cell ⟨c.x, c.y, c.is_blue, c.revealed, c.info_type⟩) from hc)]

theorem restore_exact_blackcell {l : GeneratedLevel} (hw : l.grid.WF) {x y : ℤ}
    {c : HexCell} (hc : gridGet l.grid y x = some (.cell c)) :
    restore_clue (remove_clue l (.blackcell x y)).2 (.blackcell x y)
      (remove_clue l (.blackcell x y)).1 = l := by
  have hb := gridGet_bounds hw hc
  have hrc : remove_clue l (.blackcell x y)
      = (some (.info c.info_type),
         { grid := gridSet l.grid y x (some (.cell { c with info_type := '.' }))
           column_hints := l.column_hints
           title := l.title
           author := l.author }) := by
    simp only [remove_clue, hc]
  rw [hrc]
  have hget2 := gridGet_gridSet_self hw hb.1 hb.2
    (some (Entity.cell { c with info_type := '.' }))
  simp only [restore_clue, hget2]
  rw [gridSet_gridSet]
  rw [gridSet_gridGet_some (show gridGet l.grid y x
    = some (Entity.cell ⟨c.x, c.y, c.is_blue, c.revealed, c.info_type⟩) from hc)]

theorem get?_set_self {α : Type} {l : List α} {i : ℕ} (a : α)
    (h : i < l.length) : (l.set i a).get? i = some a := by
  rw [List.get?_eq_getElem?]
  exact List.getElem?_set_eq_of_lt a h

theorem get?_set_ne {α : Type} {l : List α} {i j : ℕ} (a : α)
    (h : i ≠ j) (hlt : i < l.length) : (l.set i a).get? j = l.get? j := by
  rw [List.get?_set_of_lt' a l hlt, if_neg h]

theorem MinInv_mk {l0 : GeneratedLevel} {g : Grid}
    {hs : List (Option ColumnHint)} {t a : String}
    (h1 : ∀ idx : ℕ, ∀ h : ColumnHint, hs.get? idx = some (some h) →
      gridGet g h.y h.x = some (.hint h) ∧
      l0.column_hints.get? idx = some (some h))
    (h2 : ∀ i1 i2 : ℕ, ∀ hA hB : ColumnHint,
      hs.get? i1 = some (some hA) → hs.get? i2 = some (some hB) → i1 ≠ i2 →
      ¬(hA.y = hB.y ∧ hA.x = hB.x))
    (h3 : ∀ y x : ℤ, ∀ c0 : HexCell, gridGet l0.grid y x = some (.cell c0) →
      ∃ c : HexCell, gridGet g y x = some (.cell c))
    (h4 : hs.length = l0.column_hints.length) :
    MinInv l0 (GeneratedLevel.mk g hs t a) :=
  ⟨h1, h2, h3, h4⟩

theorem remove_column_eq {l : GeneratedLevel} {idx : ℕ} {h : ColumnHint}
    (hget : l.column_hints.get? idx = some (some h)) :
    remove_clue l (.column idx)
      = (some (.hintVal h),
         { grid := gridSet l.grid h.y h.x none
           column_hints := l.column_hints.set idx none
           title := l.title
           author := l.author }) := by
  have hlt : idx < l.column_hints.length := by
    by_contra hge
    rw [List.get?_eq_none.mpr (Nat.le_of_not_lt hge)] at hget
    exact Option.noConfusion hget
  simp only [remove_clue, hget, if_pos hlt]

theorem remove_flower_eq {l : GeneratedLevel} {x y : ℤ} {c : HexCell}
    (hc : gridGet l.grid y x = some (.cell c)) :
    remove_clue l (.flower x y)
      = (some (.info c.info_type),
         { grid := gridSet l.grid y x (some (.cell { c with info_type := '.' }))
           column_hints := l.column_hints
           title := l.title
           author := l.author }) := by
  simp only [remove_clue, hc]

theorem remove_blackcell_eq {l : GeneratedLevel} {x y : ℤ} {c : HexCell}
    (hc : gridGet l.grid y x = some (.cell c)) :
    remove_clue l (.blackcell x y)
      = (some (.info c.info_type),
         { grid := gridSet l.grid y x (some (.cell { c with info_type := '.' }))
           column_hints := l.column_hints
           title := l.title
           author := l.author }) := by
  simp only [remove_clue, hc]

theorem attemptRemove_eq (oracle : String → Bool) (l : GeneratedLevel) (c : Clue) :
    attemptRemove oracle l c
      = if is_solvable oracle (remove_clue l c).2 then (remove_clue l c).2
        else restore_clue (remove_clue l c).2 c (remove_clue l c).1 := rfl

theorem MinInv_remove_column {l0 l : GeneratedLevel} (hinv : MinInv l0 l)
    {idx : ℕ} {h : ColumnHint}
    (hget : l.column_hints.get? idx = some (some h)) :
    MinInv l0 (GeneratedLevel.mk (gridSet l.grid h.y h.x none)
      (l.column_hints.set idx none) l.title l.author) := by
  obtain ⟨h1, h2, h3, h4⟩ := hinv
  have hlt : idx < l.column_hints.length := by
    by_contra hge
    rw [List.get?_eq_none.mpr (Nat.le_of_not_lt hge)] at hget
    exact Option.noConfusion hget
  refine MinInv_mk ?_ ?_ ?_ ?_
  · intro j hj hgj
    by_cases hji : j = idx
    · subst hji
      rw [get?_set_self none hlt] at hgj
      exact Option.noConfusion (Option.some.inj hgj)
    · rw [get?_set_ne none (fun he => hji he.symm) hlt] at hgj
      obtain ⟨hoc, hl0⟩ := h1 j hj hgj
      refine ⟨?_, hl0⟩
      rw [gridGet_gridSet_ne]
      · exact hoc
      · have hd := h2 j idx hj h hgj hget hji
        by_contra hcon
        push_neg at hcon
        exact hd ⟨hcon.1, hcon.2⟩
  · intro i1 i2 hA hB hgA hgB hne
    by_cases h1i : i1 = idx
    · subst h1i
      rw [get?_set_self none hlt] at hgA
      exact Option.noConfusion (Option.some.inj hgA)
    · by_cases h2i : i2 = idx
      · subst h2i
        rw [get?_set_self none hlt] at hgB
        exact Option.noConfusion (Option.some.inj hgB)
      · rw [get?_set_ne none (fun he => h1i he.symm) hlt] at hgA
        rw [get?_set_ne none (fun he => h2i he.symm) hlt] at hgB
        exact h2 i1 i2 hA hB hgA hgB hne
  · intro y x c0 hc0
    obtain ⟨c, hcc⟩ := h3 y x c0 hc0
    refine ⟨c, ?_⟩
    rw [gridGet_gridSet_ne]
    · exact hcc
    · have hocc := (h1 idx h hget).1
      by_contra hcon
      push_neg at hcon
      rw [← hcon.1, ← hcon.2] at hocc
      rw [hcc] at hocc
      exact Entity.noConfusion (Option.some.inj hocc)
  · rw [List.length_set]
    exact h4

theorem MinInv_remove_cell {l0 l : GeneratedLevel} (hw : l.grid.WF)
    (hinv : MinInv l0 l) {x y : ℤ} {c : HexCell}
    (hc : gridGet l.grid y x = some (.cell c)) (v : HexCell) :
    MinInv l0 (GeneratedLevel.mk (gridSet l.grid y x (some (.cell v)))
      l.column_hints l.title l.author) := by
  obtain ⟨h1, h2, h3, h4⟩ := hinv
  have hb := gridGet_bounds hw hc
  refine MinInv_mk ?_ h2 ?_ h4
  · intro j hj hgj
    obtain ⟨hoc, hl0⟩ := h1 j hj hgj
    refine ⟨?_, hl0⟩
    rw [gridGet_gridSet_ne]
    · exact hoc
    · by_contra hcon
      push_neg at hcon
      rw [hcon.1, hcon.2] at hoc
      rw [hc] at hoc
      exact Entity.noConfusion (Option.some.inj hoc)
  · intro y' x' c0 hc0
    by_cases hxy : y' = y ∧ x' = x
    · rw [hxy.1, hxy.2]
      exact ⟨v, gridGet_gridSet_self hw hb.1 hb.2 _⟩
    · obtain ⟨c', hcc⟩ := h3 y' x' c0 hc0
      refine ⟨c', ?_⟩
      rw [gridGet_gridSet_ne]
      · exact hcc
      · by_contra hcon
        push_neg at hcon
        exact hxy ⟨hcon.1, hcon.2⟩

theorem attemptStep (oracle : String → Bool) {l0 l : GeneratedLevel}
    (hw : l.grid.WF) (hinv : MinInv l0 l)
    (hsol : is_solvable oracle l = true) {c : Clue} (hok : ClueOk l0 c) :
    restore_clue (remove_clue l c).2 c (remove_clue l c).1 = l ∧
    (attemptRemove oracle l c).grid.WF ∧
    MinInv l0 (attemptRemove oracle l c) ∧
    is_solvable oracle (attemptRemove oracle l c) = true := by
  cases c with
  | column idx =>
    obtain ⟨h0, hl0get⟩ := hok
    cases eget : l.column_hints.get? idx with
    | none =>
      exfalso
      have hlen : l.column_hints.length ≤ idx := List.get?_eq_none.mp eget
      have hlt0 : idx < l0.column_hints.length := by
        by_contra hge
        rw [List.get?_eq_none.mpr (Nat.le_of_not_lt hge)] at hl0get
        exact Option.noConfusion hl0get
      rw [← hinv.2.2.2] at hlt0
      omega
    | some oh =>
      cases oh with
      | none =>
        have hre := remove_noop_column eget
        have hrestore : restore_clue (remove_clue l (.column idx)).2
            (.column idx) (remove_clue l (.column idx)).1 = l := by
          rw [hre]
          exact restore_none l _
        have hatt : attemptRemove oracle l (.column idx) = l := by
          rw [attemptRemove_eq, hre]
          simp [hsol]
        rw [hatt]
        exact ⟨hrestore, hw, hinv, hsol⟩
      | some h =>
        have hocc := (hinv.1 idx h eget).1
        have hre := remove_column_eq eget
        have hrestore := restore_exact_column eget hocc
        refine ⟨hrestore, ?_, ?_, ?_⟩ <;> rw [attemptRemove_eq]
        · by_cases hs2 : is_solvable oracle (remove_clue l (.column idx)).2 = true
          · rw [if_pos hs2, hre]
            exact gridSet_WF hw _ _ _
          · rw [if_neg hs2, hrestore]
            exact hw
        · by_cases hs2 : is_solvable oracle (remove_clue l (.column idx)).2 = true
          · rw [if_pos hs2, hre]
            exact MinInv_remove_column ⟨hinv.1, hinv.2.1, hinv.2.2.1, hinv.2.2.2⟩ eget
          · rw [if_neg hs2, hrestore]
            exact hinv
        · by_cases hs2 : is_solvable oracle (remove_clue l (.column idx)).2 = true
          · rw [if_pos hs2]
            exact hs2
          · rw [if_neg hs2, hrestore]
            exact hsol
  | flower x y =>
    obtain ⟨c0, hc0⟩ := hok
    obtain ⟨c, hc⟩ := hinv.2.2.1 y x c0 hc0
    have hre := remove_flower_eq hc
    have hrestore := restore_exact_flower hw hc
    refine ⟨hrestore, ?_, ?_, ?_⟩ <;> rw [attemptRemove_eq]
    · by_cases hs2 : is_solvable oracle (remove_clue l (.flower x y)).2 = true
      · rw [if_pos hs2, hre]
        exact gridSet_WF hw _ _ _
      · rw [if_neg hs2, hrestore]
        exact hw
    · by_cases hs2 : is_solvable oracle (remove_clue l (.flower x y)).2 = true
      · rw [if_pos hs2, hre]
        exact MinInv_remove_cell hw ⟨hinv.1, hinv.2.1, hinv.2.2.1, hinv.2.2.2⟩ hc _
      · rw [if_neg hs2, hrestore]
        exact hinv
    · by_cases hs2 : is_solvable oracle (remove_clue l (.flower x y)).2 = true
      · rw [if_pos hs2]
        exact hs2
      · rw [if_neg hs2, hrestore]
        exact hsol
  | blackcell x y =>
    obtain ⟨c0, hc0⟩ := hok
    obtain ⟨c, hc⟩ := hinv.2.2.1 y x c0 hc0
    have hre := remove_blackcell_eq hc
    have hrestore := restore_exact_blackcell hw hc
    refine ⟨hrestore, ?_, ?_, ?_⟩ <;> rw [attemptRemove_eq]
    · by_cases hs2 : is_solvable oracle (remove_clue l (.blackcell x y)).2 = true
      · rw [if_pos hs2, hre]
        exact gridSet_WF hw _ _ _
      · rw [if_neg hs2, hrestore]
        exact hw
    · by_cases hs2 : is_solvable oracle (remove_clue l (.blackcell x y)).2 = true
      · rw [if_pos hs2, hre]
        exact MinInv_remove_cell hw ⟨hinv.1, hinv.2.1, hinv.2.2.1, hinv.2.2.2⟩ hc _
      · rw [if_neg hs2, hrestore]
        exact hinv
    · by_cases hs2 : is_solvable oracle (remove_clue l (.blackcell x y)).2 = true
      · rw [if_pos hs2]
        exact hs2
      · rw [if_neg hs2, hrestore]
        exact hsol

theorem minimize_fold (oracle : String → Bool) (l0 : GeneratedLevel)
    (clues : List Clue) :
    (∀ c ∈ clues, ClueOk l0 c) →
    ∀ l : GeneratedLevel, l.grid.WF → MinInv l0 l →
      is_solvable oracle l = true →
      (clues.foldl (attemptRemove oracle) l).grid.WF ∧
      MinInv l0 (clues.foldl (attemptRemove oracle) l) ∧
      is_solvable oracle (clues.foldl (attemptRemove oracle) l) = true := by
  induction clues with
  | nil =>
    intro hcl l hw hinv hsol
    exact ⟨hw, hinv, hsol⟩
  | cons c rest ih =>
    intro hcl l hw hinv hsol
    rw [List.foldl_cons]
    obtain ⟨-, hw', hinv', hsol'⟩ :=
      attemptStep oracle hw hinv hsol (hcl c (List.mem_cons_self _ _))
    exact ih (fun c' hc' => hcl c' (List.mem_cons_of_mem _ hc')) _ hw' hinv' hsol'

theorem collectClues_ok (l : GeneratedLevel)
    (hnn : ∀ oh ∈ l.column_hints, oh ≠ none) :
    ∀ c ∈ collectClues l, ClueOk l c := by
  intro c hc
  unfold collectClues at hc
  rcases List.mem_append.mp hc with hcol | hcell
  · rcases List.mem_map.mp hcol with ⟨idx, hidx, rfl⟩
    rw [List.mem_range] at hidx
    cases eget : l.column_hints.get? idx with
    | none =>
      exfalso
      have := List.get?_eq_none.mp eget
      omega
    | some oh =>
      cases oh with
      | none => exact absurd rfl (hnn none (List.get?_mem eget))
      | some h => exact ⟨h, eget⟩
  · rcases List.mem_filterMap.mp hcell with ⟨p, hp, hfp⟩
    cases hm : gridGet l.grid p.1 p.2 with
    | none => rw [hm] at hfp; simp at hfp
    | some e =>
      cases e with
      | cell cc =>
        rw [hm] at hfp
        by_cases hi : cc.info_type ≠ '.'
        · simp only [hi, if_true] at hfp
          simp at hfp
          cases hb : cc.is_blue with
          | true =>
            rw [hb] at hfp
            simp at hfp
            rw [← hfp.2]
            exact ⟨cc, hm⟩
          | false =>
            rw [hb] at hfp
            simp at hfp
            rw [← hfp.2]
            exact ⟨cc, hm⟩
        · simp [hi] at hfp
      | hint hh => rw [hm] at hfp; simp at hfp

/-- C1 (under the state the generator hands to `minimize_clues`: a
well-formed grid, every listed hint occupying its own grid slot, listed
hints at pairwise distinct positions, no empty hint-list entries, and
`random.shuffle` modelled as a permutation): for every candidate clue
attempted, restoring the backup after stripping yields exactly the
level state from immediately before the attempt; consequently, when
the level is solvable at entry it stays solvable after every prefix of
attempts and when `minimize_clues` returns. -/
theorem C1_minimize_restore (P : Params) (ch : GenChoices)
    (oracle : String → Bool) (l : GeneratedLevel) (hw : l.grid.WF)
    (hocc : ∀ idx : ℕ, ∀ h : ColumnHint,
      l.column_hints.get? idx = some (some h) →
      gridGet l.grid h.y h.x = some (.hint h))
    (hdist : ∀ i1 i2 : ℕ, ∀ hA hB : ColumnHint,
      l.column_hints.get? i1 = some (some hA) →
      l.column_hints.get? i2 = some (some hB) → i1 ≠ i2 →
      ¬(hA.y = hB.y ∧ hA.x = hB.x))
    (hnn : ∀ oh ∈ l.column_hints, oh ≠ none)
    (hshuf : List.Perm (ch.shuffle (collectClues l)) (collectClues l))
    (hsol : is_solvable oracle l = true) :
    (∀ pre : List Clue, ∀ c : Clue, ∀ post : List Clue,
      minimizeCandidates P ch l = pre ++ c :: post →
      restore_clue (remove_clue (pre.foldl (attemptRemove oracle) l) c).2 c
          (remove_clue (pre.foldl (attemptRemove oracle) l) c).1
        = pre.foldl (attemptRemove oracle) l) ∧
    (∀ pre post : List Clue, minimizeCandidates P ch l = pre ++ post →
      is_solvable oracle (pre.foldl (attemptRemove oracle) l) = true) ∧
    is_solvable oracle (minimize_clues P ch oracle l) = true := by
  have hinv : MinInv l l :=
    ⟨fun idx h hg => ⟨hocc idx h hg, hg⟩, hdist, fun y x c0 hc => ⟨c0, hc⟩, rfl⟩
  have hcand : ∀ c ∈ minimizeCandidates P ch l, ClueOk l c := by
    intro c hc
    refine collectClues_ok l hnn c ?_
    simp only [minimizeCandidates] at hc
    exact hshuf.mem_iff.mp (List.take_subset _ _ hc)
  refine ⟨?_, ?_, ?_⟩
  · intro pre c post hsplit
    have hcl_pre : ∀ c' ∈ pre, ClueOk l c' := fun c' hc' =>
      hcand c' (by rw [hsplit]; exact List.mem_append.mpr (Or.inl hc'))
    obtain ⟨hw', hinv', hsol'⟩ := minimize_fold oracle l pre hcl_pre l hw hinv hsol
    exact (attemptStep oracle hw' hinv' hsol'
      (hcand c (by
        rw [hsplit]
        exact List.mem_append.mpr (Or.inr (List.mem_cons_self _ _))))).1
  · intro pre post hsplit
    have hcl_pre : ∀ c' ∈ pre, ClueOk l c' := fun c' hc' =>
      hcand c' (by rw [hsplit]; exact List.mem_append.mpr (Or.inl hc'))
    exact (minimize_fold oracle l pre hcl_pre l hw hinv hsol).2.2
  · exact (minimize_fold oracle l (minimizeCandidates P ch l) hcand l hw hinv hsol).2.2

/-- Witness for C1 at the freshly initialised level with an
always-solvable oracle. -/
theorem C1_witness :
    is_solvable (fun _ => true)
      (minimize_clues P0 ch0 (fun _ => true) GeneratedLevel.init) = true :=
  (C1_minimize_restore P0 ch0 (fun _ => true) GeneratedLevel.init
    emptyGrid_WF
    (by
      intro idx h hg
      rw [show GeneratedLevel.init.column_hints
        = ([] : List (Option ColumnHint)) from rfl] at hg
      simp at hg)
    (by
      intro i1 i2 hA hB hgA
      rw [show GeneratedLevel.init.column_hints
        = ([] : List (Option ColumnHint)) from rfl] at hgA
      simp at hgA)
    (by
      intro oh hmem
      rw [show GeneratedLevel.init.column_hints
        = ([] : List (Option ColumnHint)) from rfl] at hmem
      simp at hmem)
    (List.Perm.refl _)
    rfl).2.2

theorem CellsEq.refl (g : Grid) : CellsEq g g := fun _ _ _ => Iff.rfl

theorem CellsEq.trans {g1 g2 g3 : Grid} (h12 : CellsEq g1 g2)
    (h23 : CellsEq g2 g3) : CellsEq g1 g3 :=
  fun y x c => (h12 y x c).trans (h23 y x c)

theorem CellsEq.symm {g1 g2 : Grid} (h : CellsEq g1 g2) : CellsEq g2 g1 :=
  fun y x c => (h y x c).symm

theorem lineCellsAux_fuel {g : Grid} {dx dy : ℤ} (hdy : 1 ≤ dy) :
    ∀ f1 : ℕ, ∀ f2 : ℕ, ∀ cx cy : ℤ, 33 ≤ cy + f1 → 33 ≤ cy + f2 →
      lineCellsAux g dx dy cx cy f1 = lineCellsAux g dx dy cx cy f2 := by
  intro f1
  induction f1 with
  | zero =>
    intro f2 cx cy h1 h2
    have hnb : ¬(inBounds cx ∧ inBounds cy) := by
      intro hb
      have := hb.2.2
      omega
    cases f2 with
    | zero => rfl
    | succ t =>
      show lineCellsAux g dx dy cx cy 0 = lineCellsAux g dx dy cx cy (t + 1)
      unfold lineCellsAux
      rw [if_neg hnb]
  | succ s ih =>
    intro f2 cx cy h1 h2
    by_cases hb : inBounds cx ∧ inBounds cy
    · have hcy : cy < 33 := hb.2.2
      cases f2 with
      | zero => omega
      | succ t =>
        show lineCellsAux g dx dy cx cy (s + 1) = lineCellsAux g dx dy cx cy (t + 1)
        unfold lineCellsAux
        rw [if_pos hb, if_pos hb]
        have hrec := ih t (cx + dx) (cy + dy) (by omega) (by omega)
        rw [hrec]
    · cases f2 with
      | zero =>
        show lineCellsAux g dx dy cx cy (s + 1) = lineCellsAux g dx dy cx cy 0
        unfold lineCellsAux
        rw [if_neg hb]
      | succ t =>
        show lineCellsAux g dx dy cx cy (s + 1) = lineCellsAux g dx dy cx cy (t + 1)
        unfold lineCellsAux
        rw [if_neg hb, if_neg hb]

theorem filter_line_eq_cellLine (g : Grid) (dx dy : ℤ) :
    ∀ fuel : ℕ, ∀ cx cy : ℤ,
      (lineCellsAux g dx dy cx cy fuel).filter
        (fun p => decide (isCellAt g p.1 p.2))
      = cellLine g dx dy cx cy fuel := by
  intro fuel
  induction fuel with
  | zero => intro cx cy; rfl
  | succ f ih =>
    intro cx cy
    show (lineCellsAux g dx dy cx cy (f + 1)).filter _
      = cellLine g dx dy cx cy (f + 1)
    unfold lineCellsAux cellLine
    by_cases hb : inBounds cx ∧ inBounds cy
    · rw [if_pos hb, if_pos hb]
      cases hm : gridGet g cy cx with
      | none =>
        rw [if_neg (show ¬(none : Option Entity) ≠ none from fun h => h rfl)]
        exact ih (cx + dx) (cy + dy)
      | some e =>
        rw [if_pos (show (some e : Option Entity) ≠ none
          from fun h => Option.noConfusion h)]
        cases e with
        | cell c =>
          rw [List.filter_cons,
            if_pos (show decide (isCellAt g (cx, cy).1 (cx, cy).2) = true
              from decide_eq_true ⟨c, hm⟩)]
          rw [ih (cx + dx) (cy + dy)]
        | hint hh =>
          rw [List.filter_cons,
            if_neg (show ¬decide (isCellAt g (cx, cy).1 (cx, cy).2) = true
              from by
                rw [decide_eq_true_eq]
                rintro ⟨c, hcc⟩
                rw [hm] at hcc
                exact Entity.noConfusion (Option.some.inj hcc))]
          exact ih (cx + dx) (cy + dy)
    · rw [if_neg hb, if_neg hb]
      rfl

theorem cellLine_congr {g1 g2 : Grid} (hc : CellsEq g1 g2) (dx dy : ℤ) :
    ∀ fuel : ℕ, ∀ cx cy : ℤ,
      cellLine g1 dx dy cx cy fuel = cellLine g2 dx dy cx cy fuel := by
  intro fuel
  induction fuel with
  | zero => intro cx cy; rfl
  | succ f ih =>
    intro cx cy
    show cellLine g1 dx dy cx cy (f + 1) = cellLine g2 dx dy cx cy (f + 1)
    unfold cellLine
    by_cases hb : inBounds cx ∧ inBounds cy
    · rw [if_pos hb, if_pos hb]
      cases hm1 : gridGet g1 cy cx with
      | none =>
        cases hm2 : gridGet g2 cy cx with
        | none => exact ih (cx + dx) (cy + dy)
        | some e =>
          cases e with
          | cell c =>
            have := (hc cy cx c).mpr hm2
            rw [hm1] at this
            exact Option.noConfusion this
          | hint hh => exact ih (cx + dx) (cy + dy)
      | some e =>
        cases e with
        | cell c =>
          rw [(hc cy cx c).mp hm1]
          rw [ih (cx + dx) (cy + dy)]
        | hint hh =>
          cases hm2 : gridGet g2 cy cx with
          | none => exact ih (cx + dx) (cy + dy)
          | some e2 =>
            cases e2 with
            | cell c =>
              have := (hc cy cx c).mpr hm2
              rw [hm1] at this
              exact Entity.noConfusion (Option.some.inj this)
            | hint hh2 => exact ih (cx + dx) (cy + dy)
    · rw [if_neg hb, if_neg hb]

theorem cellLine_fuel {g : Grid} {dx dy : ℤ} (hdy : 1 ≤ dy) :
    ∀ f1 : ℕ, ∀ f2 : ℕ, ∀ cx cy : ℤ, 33 ≤ cy + f1 → 33 ≤ cy + f2 →
      cellLine g dx dy cx cy f1 = cellLine g dx dy cx cy f2 := by
  intro f1
  induction f1 with
  | zero =>
    intro f2 cx cy h1 h2
    have hnb : ¬(inBounds cx ∧ inBounds cy) := by
      intro hb
      have := hb.2.2
      omega
    cases f2 with
    | zero => rfl
    | succ t =>
      show cellLine g dx dy cx cy 0 = cellLine g dx dy cx cy (t + 1)
      unfold cellLine
      rw [if_neg hnb]
  | succ s ih =>
    intro f2 cx cy h1 h2
    by_cases hb : inBounds cx ∧ inBounds cy
    · have hcy : cy < 33 := hb.2.2
      cases f2 with
      | zero => omega
      | succ t =>
        show cellLine g dx dy cx cy (s + 1) = cellLine g dx dy cx cy (t + 1)
        unfold cellLine
        rw [if_pos hb, if_pos hb]
        have hrec := ih t (cx + dx) (cy + dy) (by omega) (by omega)
        rw [hrec]
    · cases f2 with
      | zero =>
        show cellLine g dx dy cx cy (s + 1) = cellLine g dx dy cx cy 0
        unfold cellLine
        rw [if_neg hb]
      | succ t =>
        show cellLine g dx dy cx cy (s + 1) = cellLine g dx dy cx cy (t + 1)
        unfold cellLine
        rw [if_neg hb, if_neg hb]

theorem get_hex_eq_cellLine (g : Grid) (x y : ℤ) (d : Dir) :
    get_hex_cells_in_line g x y d = cellLine g d.delta.1 d.delta.2 x y 34 := by
  unfold get_hex_cells_in_line get_line_cells
  exact filter_line_eq_cellLine g d.delta.1 d.delta.2 34 x y

theorem get_hex_congr {g1 g2 : Grid} (hc : CellsEq g1 g2) (x y : ℤ) (d : Dir) :
    get_hex_cells_in_line g1 x y d = get_hex_cells_in_line g2 x y d := by
  rw [get_hex_eq_cellLine, get_hex_eq_cellLine]
  exact cellLine_congr hc d.delta.1 d.delta.2 34 x y

theorem isBlueCellAt_congr {g1 g2 : Grid} (hc : CellsEq g1 g2) (x y : ℤ) :
    isBlueCellAt g1 x y = isBlueCellAt g2 x y := by
  unfold isBlueCellAt
  cases hm1 : gridGet g1 y x with
  | none =>
    cases hm2 : gridGet g2 y x with
    | none => rfl
    | some e =>
      cases e with
      | cell c =>
        have := (hc y x c).mpr hm2
        rw [hm1] at this
        exact Option.noConfusion this
      | hint hh => rfl
  | some e =>
    cases e with
    | cell c =>
      rw [(hc y x c).mp hm1]
    | hint hh =>
      cases hm2 : gridGet g2 y x with
      | none => rfl
      | some e2 =>
        cases e2 with
        | cell c =>
          have := (hc y x c).mpr hm2
          rw [hm1] at this
          exact Entity.noConfusion (Option.some.inj this)
        | hint hh2 => rfl

theorem filterMap_congr_fun {α β : Type} {f1 f2 : α → Option β}
    (h : ∀ a, f1 a = f2 a) : ∀ l : List α, l.filterMap f1 = l.filterMap f2 := by
  intro l
  induction l with
  | nil => rfl
  | cons a t ih =>
    rw [List.filterMap_cons, List.filterMap_cons, h a, ih]

theorem blueIndices_congr {g1 g2 : Grid} (hc : CellsEq g1 g2)
    (L : List (ℤ × ℤ)) : blueIndices g1 L = blueIndices g2 L := by
  unfold blueIndices
  exact filterMap_congr_fun
    (fun ip => by rw [isBlueCellAt_congr hc ip.2.1 ip.2.2]) L.enum

theorem HintGood_congr {g1 g2 : Grid} (hc : CellsEq g1 g2) (h : ColumnHint) :
    HintGood g1 h ↔ HintGood g2 h := by
  unfold HintGood
  rw [get_hex_congr hc, blueIndices_congr hc]

theorem blueIndices_enumFrom_length (g : Grid) :
    ∀ L : List (ℤ × ℤ), ∀ n : ℕ,
      ((List.enumFrom n L).filterMap fun ip =>
        if isBlueCellAt g ip.2.1 ip.2.2 then some ip.1 else none).length
      = (L.filter fun p => isBlueCellAt g p.1 p.2).length := by
  intro L
  induction L with
  | nil => intro n; rfl
  | cons p t ih =>
    intro n
    rw [List.enumFrom_cons, List.filterMap_cons, List.filter_cons]
    by_cases hbl : isBlueCellAt g p.1 p.2 = true
    · rw [if_pos (show isBlueCellAt g ((n, p) : ℕ × ℤ × ℤ).2.1
          ((n, p) : ℕ × ℤ × ℤ).2.2 = true from hbl),
        if_pos hbl]
      simp only [List.length_cons]
      rw [ih (n + 1)]
    · rw [if_neg (show ¬isBlueCellAt g ((n, p) : ℕ × ℤ × ℤ).2.1
          ((n, p) : ℕ × ℤ × ℤ).2.2 = true from hbl),
        if_neg hbl]
      exact ih (n + 1)

theorem blueIndices_length (g : Grid) (L : List (ℤ × ℤ)) :
    (blueIndices g L).length = (L.filter fun p => isBlueCellAt g p.1 p.2).length :=
  blueIndices_enumFrom_length g L 0

theorem Dir.delta_dy (d : Dir) : 1 ≤ d.delta.2 := by
  cases d <;> decide

theorem consecRun_chain (l : List ℕ) :
    consecRun l = true ↔ List.Chain' (fun a b => b = a + 1) l := by
  induction l with
  | nil => simp [consecRun]
  | cons a t ih =>
    cases t with
    | nil => simp [consecRun]
    | cons b r =>
      rw [show consecRun (a :: b :: r)
          = (decide (a + 1 = b) && consecRun (b :: r)) from rfl,
        Bool.and_eq_true, List.chain'_cons, ih]
      simp [eq_comm]

theorem check_consecutive_eq {g : Grid} {line blue : List (ℤ × ℤ)}
    (hlen : (blueIndices g line).length = blue.length)
    (hgt : 1 < blue.length) :
    check_consecutive g line blue
      = some (if consecRun (blueIndices g line) then 'c' else 'n') := by
  unfold check_consecutive
  rw [if_neg (by
    intro hb
    rw [hb] at hgt
    simp at hgt)]
  show (if blueIndices g line = [] then none
    else if (blueIndices g line).length > 1 then
      some (if consecRun (blueIndices g line) then 'c' else 'n')
    else none) = _
  rw [if_neg (by
    intro hb
    rw [hb] at hlen
    simp at hlen
    omega)]
  rw [if_pos (by omega)]

theorem CellsEq_move_step {g : Grid} (hw : g.WF) {h : ColumnHint}
    (hnc : ∀ c : HexCell, gridGet g h.y h.x ≠ some (.cell c))
    {ny nx : ℤ} (hne_on : ¬(h.y = ny ∧ h.x = nx))
    (hby : inBounds ny) (hbx : inBounds nx)
    (hnone : gridGet g ny nx = none) (hv : ColumnHint) :
    CellsEq g (gridSet (gridSet g h.y h.x none) ny nx (some (.hint hv))) := by
  intro y x c
  by_cases h1 : y = ny ∧ x = nx
  · rw [h1.1, h1.2]
    rw [gridGet_gridSet_self (gridSet_WF hw _ _ _) hby hbx]
    constructor
    · intro hh
      rw [hnone] at hh
      exact Option.noConfusion hh
    · intro hh
      exact Entity.noConfusion (Option.some.inj hh)
  · by_cases h2 : y = h.y ∧ x = h.x
    · rw [h2.1, h2.2]
      rw [gridGet_gridSet_ne _ (by tauto), gridGet_gridSet_none_self]
      constructor
      · intro hh
        exact absurd hh (hnc c)
      · intro hh
        exact Option.noConfusion hh
    · rw [gridGet_gridSet_ne _ (by tauto), gridGet_gridSet_ne _ (by tauto)]

theorem moveLoop_props :
    ∀ fuel : ℕ, ∀ g : Grid, ∀ h : ColumnHint, g.WF →
      (∀ c : HexCell, gridGet g h.y h.x ≠ some (.cell c)) →
      inBounds h.x → inBounds h.y →
      (moveLoop g h fuel).1.WF ∧
      CellsEq g (moveLoop g h fuel).1 ∧
      (∀ y x : ℤ, ∀ w : ColumnHint, gridGet g y x = some (.hint w) →
        ¬(y = h.y ∧ x = h.x) →
        gridGet (moveLoop g h fuel).1 y x = some (.hint w)) ∧
      ((moveLoop g h fuel).2.2 = false →
        (moveLoop g h fuel).2.1.direction = h.direction ∧
        (moveLoop g h fuel).2.1.consecutive = h.consecutive ∧
        cellLine (moveLoop g h fuel).1 h.direction.delta.1 h.direction.delta.2
            (moveLoop g h fuel).2.1.x (moveLoop g h fuel).2.1.y 34
          = cellLine g h.direction.delta.1 h.direction.delta.2 h.x h.y 34) := by
  intro fuel
  induction fuel with
  | zero =>
    intro g h hw hnc hbx hby
    exact ⟨hw, CellsEq.refl g, fun y x w hw' _ => hw',
      fun _ => ⟨rfl, rfl, rfl⟩⟩
  | succ f ih =>
    intro g h hw hnc hbx hby
    have hb0 : inBounds h.y ∧ inBounds h.x := ⟨hby, hbx⟩
    have hdy := Dir.delta_dy h.direction
    show (moveLoop g h (f + 1)).1.WF ∧ _
    unfold moveLoop
    by_cases hb : inBounds (h.x + h.direction.delta.1) ∧
        inBounds (h.y + h.direction.delta.2)
    · rw [if_pos hb]
      cases hm : gridGet g (h.y + h.direction.delta.2)
          (h.x + h.direction.delta.1) with
      | none =>
        have hw2 : (gridSet (gridSet g h.y h.x none)
            (h.y + h.direction.delta.2) (h.x + h.direction.delta.1)
            (some (.hint { h with
              x := h.x + h.direction.delta.1
              y := h.y + h.direction.delta.2 }))).WF :=
          gridSet_WF (gridSet_WF hw _ _ _) _ _ _
        have hne_on : ¬(h.y = h.y + h.direction.delta.2 ∧
            h.x = h.x + h.direction.delta.1) := by
          intro he
          have h1 := he.1
          omega
        have hceq : CellsEq g (gridSet (gridSet g h.y h.x none)
            (h.y + h.direction.delta.2) (h.x + h.direction.delta.1)
            (some (.hint { h with
              x := h.x + h.direction.delta.1
              y := h.y + h.direction.delta.2 }))) :=
          CellsEq_move_step hw hnc hne_on hb.2 hb.1 hm _
        have hocc2 : gridGet (gridSet (gridSet g h.y h.x none)
            (h.y + h.direction.delta.2) (h.x + h.direction.delta.1)
            (some (.hint { h with
              x := h.x + h.direction.delta.1
              y := h.y + h.direction.delta.2 })))
            ({ h with
              x := h.x + h.direction.delta.1
              y := h.y + h.direction.delta.2 } : ColumnHint).y
            ({ h with
              x := h.x + h.direction.delta.1
              y := h.y + h.direction.delta.2 } : ColumnHint).x
            = some (.hint { h with
              x := h.x + h.direction.delta.1
              y := h.y + h.direction.delta.2 }) :=
          gridGet_gridSet_self (gridSet_WF hw _ _ _) hb.2 hb.1 _
        have hnc2 : ∀ c : HexCell, gridGet (gridSet (gridSet g h.y h.x none)
            (h.y + h.direction.delta.2) (h.x + h.direction.delta.1)
            (some (.hint { h with
              x := h.x + h.direction.delta.1
              y := h.y + h.direction.delta.2 })))
            ({ h with
              x := h.x + h.direction.delta.1
              y := h.y + h.direction.delta.2 } : ColumnHint).y
            ({ h with
              x := h.x + h.direction.delta.1
              y := h.y + h.direction.delta.2 } : ColumnHint).x
            ≠ some (.cell c) := by
          intro c hcon
          rw [hocc2] at hcon
          exact Entity.noConfusion (Option.some.inj hcon)
        obtain ⟨rwf, rceq, rframe, rres⟩ := ih _ _ hw2 hnc2 hb.1 hb.2
        refine ⟨rwf, hceq.trans rceq, ?_, ?_⟩
        · intro y x w hwx hne
          have hne_new : ¬(y = h.y + h.direction.delta.2 ∧
              x = h.x + h.direction.delta.1) := by
            intro he
            rw [he.1, he.2] at hwx
            rw [hm] at hwx
            exact Option.noConfusion hwx
          have hw2x : gridGet (gridSet (gridSet g h.y h.x none)
              (h.y + h.direction.delta.2) (h.x + h.direction.delta.1)
              (some (.hint { h with
                x := h.x + h.direction.delta.1
                y := h.y + h.direction.delta.2 }))) y x = some (.hint w) := by
            rw [gridGet_gridSet_ne _ (by tauto), gridGet_gridSet_ne _ (by tauto)]
            exact hwx
          exact rframe y x w hw2x hne_new
        · intro hrem
          obtain ⟨rd, rc, rhex⟩ := rres hrem
          refine ⟨rd, rc, ?_⟩
          rw [rhex]
          have hstep : cellLine (gridSet (gridSet g h.y h.x none)
              (h.y + h.direction.delta.2) (h.x + h.direction.delta.1)
              (some (.hint { h with
                x := h.x + h.direction.delta.1
                y := h.y + h.direction.delta.2 })))
              h.direction.delta.1 h.direction.delta.2
              (h.x + h.direction.delta.1) (h.y + h.direction.delta.2) 34
              = cellLine g h.direction.delta.1 h.direction.delta.2 h.x h.y 34 := by
            rw [← cellLine_congr hceq]
            have h1 : cellLine g h.direction.delta.1 h.direction.delta.2
                h.x h.y 34
                = cellLine g h.direction.delta.1 h.direction.delta.2
                  (h.x + h.direction.delta.1) (h.y + h.direction.delta.2) 33 := by
              show cellLine g h.direction.delta.1 h.direction.delta.2
                h.x h.y (33 + 1) = _
              unfold cellLine
              rw [if_pos ⟨hb0.2, hb0.1⟩]
              cases e2 : gridGet g h.y h.x with
              | none => rfl
              | some e =>
                cases e with
                | cell c => exact absurd e2 (hnc c)
                | hint hh => rfl
            have h2 : cellLine g h.direction.delta.1 h.direction.delta.2
                (h.x + h.direction.delta.1) (h.y + h.direction.delta.2) 33
                = cellLine g h.direction.delta.1 h.direction.delta.2
                  (h.x + h.direction.delta.1) (h.y + h.direction.delta.2) 34 := by
              refine cellLine_fuel hdy 33 34 _ _ ?_ ?_
              · have := hb0.1.1
                omega
              · have := hb0.1.1
                omega
            rw [h1, h2]
          exact hstep
      | some e =>
        cases e with
        | cell c =>
          exact ⟨hw, CellsEq.refl g, fun y x w hw' _ => hw',
            fun _ => ⟨rfl, rfl, rfl⟩⟩
        | hint hh =>
          refine ⟨gridSet_WF hw _ _ _, ?_, ?_, ?_⟩
          · intro y x c
            by_cases h2 : y = h.y ∧ x = h.x
            · rw [h2.1, h2.2, gridGet_gridSet_none_self]
              constructor
              · intro hcc
                exact absurd hcc (hnc c)
              · intro hcc
                exact Option.noConfusion hcc
            · rw [gridGet_gridSet_ne _ (by tauto)]
          · intro y x w hwx hne
            rw [gridGet_gridSet_ne _ (by tauto)]
            exact hwx
          · intro hrem
            exact absurd hrem (by simp)
    · rw [if_neg hb]
      exact ⟨hw, CellsEq.refl g, fun y x w hw' _ => hw',
        fun _ => ⟨rfl, rfl, rfl⟩⟩

theorem option_beq_some (h v : ColumnHint) :
    ((some h : Option ColumnHint) == some v) = (h == v) := by
  by_cases he : h = v
  · subst he
    simp
  · rw [show ((some h : Option ColumnHint) == some v) = false from by simp [he],
      show (h == v) = false from by simp [he]]

theorem count_fold_erase (L : List ColumnHint) :
    ∀ (hs : List (Option ColumnHint)) (v : ColumnHint),
      List.count (some v) (L.foldl (fun hs h => hs.erase (some h)) hs)
        = List.count (some v) hs - List.count v L := by
  induction L with
  | nil => intro hs v; simp
  | cons h t ih =>
    intro hs v
    rw [List.foldl_cons, ih, List.count_erase, List.count_cons, option_beq_some]
    omega

theorem count_set_get? {α : Type} [BEq α] {l : List α} {i : ℕ} {c : α}
    (h : l.get? i = some c) (b : α) (a : α) :
    List.count a (l.set i b)
      = List.count a l - (if (c == a) = true then 1 else 0)
        + (if (b == a) = true then 1 else 0) := by
  have hlt : i < l.length := by
    by_contra hge
    rw [List.get?_eq_none.mpr (Nat.le_of_not_lt hge)] at h
    exact Option.noConfusion h
  have hel : l[i] = c := by
    rw [List.get?_eq_getElem?, List.getElem?_eq_getElem hlt] at h
    exact Option.some.inj h
  rw [List.count_set, hel]

theorem count_drop_succ {α : Type} [BEq α] {l : List α} {k : ℕ} {c : α}
    (h : l.get? k = some c) (a : α) :
    List.count a (l.drop k)
      = (if (c == a) = true then 1 else 0) + List.count a (l.drop (k + 1)) := by
  have hlt : k < l.length := by
    by_contra hge
    rw [List.get?_eq_none.mpr (Nat.le_of_not_lt hge)] at h
    exact Option.noConfusion h
  have hel : l[k] = c := by
    rw [List.get?_eq_getElem?, List.getElem?_eq_getElem hlt] at h
    exact Option.some.inj h
  rw [List.drop_eq_getElem_cons hlt, hel, List.count_cons]
  omega

theorem count_ge_ind {α : Type} [BEq α] [LawfulBEq α] {l : List α} {i : ℕ}
    {c : α} (h : l.get? i = some c) (a : α) :
    (if (c == a) = true then 1 else 0) ≤ List.count a l := by
  by_cases hb : (c == a) = true
  · rw [if_pos hb]
    have hca : c = a := eq_of_beq hb
    subst hca
    exact List.count_pos_iff.mpr (List.get?_mem h)
  · rw [if_neg hb]
    exact Nat.zero_le _

theorem CellsEq_clear_noncell {g : Grid} {y0 x0 : ℤ}
    (hnc : ∀ c : HexCell, gridGet g y0 x0 ≠ some (.cell c)) :
    CellsEq g (gridSet g y0 x0 none) := by
  intro y x c
  by_cases h2 : y = y0 ∧ x = x0
  · rw [h2.1, h2.2, gridGet_gridSet_none_self]
    constructor
    · intro hcc
      exact absurd hcc (hnc c)
    · intro hcc
      exact Option.noConfusion hcc
  · rw [gridGet_gridSet_ne _ (by tauto)]

theorem recheckStep_inv {g0 : Grid} {hs0 : List (Option ColumnHint)}
    (hnc0 : ∀ i : ℕ, ∀ h : ColumnHint, hs0.get? i = some (some h) →
      ∀ c : HexCell, gridGet g0 h.y h.x ≠ some (.cell c))
    {k : ℕ} {s : RecheckState}
    (hinv : RInv g0 hs0 k s) :
    RInv g0 hs0 (k + 1) (recheckStep s k) := by
  obtain ⟨hwf, hceq, hlen, hunch, hcnt⟩ := hinv
  cases e0 : hs0.get? k with
  | none =>
    have hsk : s.hints.get? k = none := by
      rw [hunch k (le_refl k)]
      exact e0
    have hstep : recheckStep s k = s := by
      simp only [recheckStep, hsk]
    rw [hstep]
    refine ⟨hwf, hceq, hlen, fun i hi => hunch i (by omega), ?_⟩
    intro v hbad
    have h1 := hcnt v hbad
    have hge : hs0.length ≤ k := List.get?_eq_none.mp e0
    rw [show hs0.drop k = hs0.drop (k + 1) from by
      rw [List.drop_eq_nil_of_le hge, List.drop_eq_nil_of_le (by omega)]] at h1
    exact h1
  | some oh =>
    cases oh with
    | none =>
      have hsk : s.hints.get? k = some none := by
        rw [hunch k (le_refl k)]
        exact e0
      have hstep : recheckStep s k = s := by
        simp only [recheckStep, hsk]
      rw [hstep]
      refine ⟨hwf, hceq, hlen, fun i hi => hunch i (by omega), ?_⟩
      intro v hbad
      have h1 := hcnt v hbad
      rw [count_drop_succ e0 (some v)] at h1
      rw [show ((none : Option ColumnHint) == some v) = false from rfl] at h1
      simpa using h1
    | some h =>
      have hsk : s.hints.get? k = some (some h) := by
        rw [hunch k (le_refl k)]
        exact e0
      have hkl : k < s.hints.length := by
        rw [hlen]
        by_contra hge
        rw [List.get?_eq_none.mpr (Nat.le_of_not_lt hge)] at e0
        exact Option.noConfusion e0
      have hnck : ∀ c : HexCell, gridGet s.grid h.y h.x ≠ some (.cell c) := by
        intro c hcon
        exact hnc0 k h e0 c ((hceq h.y h.x c).mpr hcon)
      by_cases hhex : get_hex_cells_in_line s.grid h.x h.y h.direction = []
      · have hstep : recheckStep s k
            = ⟨gridSet s.grid h.y h.x none, s.hints, s.toRemove ++ [h]⟩ := by
          simp only [recheckStep, hsk]
          rw [if_pos hhex]
        rw [hstep]
        refine ⟨gridSet_WF hwf _ _ _, hceq.trans (CellsEq_clear_noncell hnck),
          hlen, ?_, ?_⟩
        · intro i hi
          exact hunch i (by omega)
        · intro v hbad
          have h1 := hcnt v hbad
          rw [count_drop_succ e0 (some v), option_beq_some] at h1
          show List.count (some v) s.hints
            ≤ List.count v (s.toRemove ++ [h]) + _
          rw [List.count_append, List.count_singleton']
          simp only [beq_iff_eq] at h1 ⊢
          omega
      · have hbnd : inBounds h.x ∧ inBounds h.y := by
          by_contra hcon
          apply hhex
          unfold get_hex_cells_in_line get_line_cells
          show (lineCellsAux s.grid h.direction.delta.1 h.direction.delta.2
            h.x h.y (33 + 1)).filter _ = []
          unfold lineCellsAux
          rw [if_neg hcon]
          rfl
        rcases hml : moveLoop s.grid h 3 with ⟨g', h', removed⟩
        obtain ⟨rwf, rceq, rframe, rres⟩ :=
          moveLoop_props 3 s.grid h hwf hnck hbnd.1 hbnd.2
        rw [hml] at rwf rceq rframe rres
        cases removed with
        | true =>
          have hstep : recheckStep s k
              = ⟨g', s.hints.set k (some h'), s.toRemove ++ [h']⟩ := by
            simp only [recheckStep, hsk]
            rw [if_neg hhex, hml]
            rfl
          rw [hstep]
          refine ⟨rwf, hceq.trans rceq, ?_, ?_, ?_⟩
          · show (s.hints.set k (some h')).length = hs0.length
            rw [List.length_set]
            exact hlen
          · intro i hi
            show (s.hints.set k (some h')).get? i = hs0.get? i
            rw [get?_set_ne (some h') (by omega) hkl]
            exact hunch i (by omega)
          · intro v hbad
            have h1 := hcnt v hbad
            rw [count_drop_succ e0 (some v), option_beq_some] at h1
            have h2 := count_set_get? hsk (some h') (some v)
            rw [option_beq_some, option_beq_some] at h2
            have h3 := count_ge_ind hsk (some v)
            rw [option_beq_some] at h3
            show List.count (some v) (s.hints.set k (some h'))
              ≤ List.count v (s.toRemove ++ [h']) + _
            rw [List.count_append, List.count_singleton', h2]
            simp only [beq_iff_eq] at h1 h3 ⊢
            omega
        | false =>
          have hresf := rres rfl
          obtain ⟨rd, rc, rhex⟩ := hresf
          have hstep : recheckStep s k
              = ⟨g', (s.hints.set k (some h')).set k
                  (some (recheckUpdate s.grid g' h h')), s.toRemove⟩ := by
            simp only [recheckStep, hsk]
            rw [if_neg hhex, hml]
            rfl
          rw [hstep, List.set_set]
          have hce0 : CellsEq g0 g' := hceq.trans rceq
          have hhex0 : get_hex_cells_in_line g0 h'.x h'.y h'.direction
              = get_hex_cells_in_line s.grid h.x h.y h.direction := by
            rw [get_hex_congr hce0, rd]
            rw [get_hex_eq_cellLine, get_hex_eq_cellLine, rhex]
          have hbi0 : blueIndices g0
              (get_hex_cells_in_line s.grid h.x h.y h.direction)
              = blueIndices g'
                (get_hex_cells_in_line s.grid h.x h.y h.direction) :=
            blueIndices_congr hce0 _
          have hbl : (blueIndices g'
              (get_hex_cells_in_line s.grid h.x h.y h.direction)).length
              = ((get_hex_cells_in_line s.grid h.x h.y
                  h.direction).filter fun p =>
                    isBlueCellAt g' p.1 p.2).length :=
            blueIndices_length g' _
          have hgood : HintGood g0 (recheckUpdate s.grid g' h h') := by
            unfold HintGood recheckUpdate
            by_cases hb1 : ((get_hex_cells_in_line s.grid h.x h.y
                h.direction).filter fun p => isBlueCellAt g' p.1 p.2).length ≤ 1
            · left
              refine ⟨?_, ?_⟩
              · show (blueIndices g0 (get_hex_cells_in_line g0 h'.x h'.y
                    h'.direction)).length ≤ 1
                rw [hhex0, hbi0, hbl]
                exact hb1
              · show (if _ ≤ 1 then none else _) = (none : Option Char)
                rw [if_pos hb1]
            · right
              refine ⟨?_, ?_⟩
              · show 1 < (blueIndices g0 (get_hex_cells_in_line g0 h'.x h'.y
                    h'.direction)).length
                rw [hhex0, hbi0, hbl]
                omega
              · show (if _ ≤ 1 then none else _)
                  = some (if consecRun (blueIndices g0
                      (get_hex_cells_in_line g0 h'.x h'.y h'.direction))
                    then 'c' else 'n')
                rw [if_neg hb1]
                rw [check_consecutive_eq (by rw [hbl]) (by omega)]
                rw [hhex0, hbi0]
          refine ⟨rwf, hce0, ?_, ?_, ?_⟩
          · show (s.hints.set k _).length = hs0.length
            rw [List.length_set]
            exact hlen
          · intro i hi
            show (s.hints.set k _).get? i = hs0.get? i
            rw [get?_set_ne _ (by omega) hkl]
            exact hunch i (by omega)
          · intro v hbad
            have h1 := hcnt v hbad
            rw [count_drop_succ e0 (some v), option_beq_some] at h1
            have h2 := count_set_get? hsk
              (some (recheckUpdate s.grid g' h h')) (some v)
            rw [option_beq_some, option_beq_some] at h2
            have h3 := count_ge_ind hsk (some v)
            rw [option_beq_some] at h3
            have hgv : ¬ recheckUpdate s.grid g' h h' = v := by
              intro he
              exact hbad (he ▸ hgood)
            show List.count (some v)
                (s.hints.set k (some (recheckUpdate s.grid g' h h')))
              ≤ List.count v s.toRemove
                + List.count (some v) (hs0.drop (k + 1))
            simp only [beq_iff_eq] at h1 h2 h3
            rw [if_neg hgv] at h2
            rw [h2]
            by_cases hv : h = v
            · rw [if_pos hv] at h1 h3 ⊢
              omega
            · rw [if_neg hv] at h1 h3 ⊢
              omega

theorem recheck_fold_inv {g0 : Grid} {hs0 : List (Option ColumnHint)}
    (hnc0 : ∀ i : ℕ, ∀ h : ColumnHint, hs0.get? i = some (some h) →
      ∀ c : HexCell, gridGet g0 h.y h.x ≠ some (.cell c))
    {s0 : RecheckState} (h0 : RInv g0 hs0 0 s0) :
    ∀ n : ℕ, RInv g0 hs0 n ((List.range n).foldl recheckStep s0) := by
  intro n
  induction n with
  | zero => exact h0
  | succ m ih =>
    rw [List.range_succ, List.foldl_append, List.foldl_cons, List.foldl_nil]
    exact recheckStep_inv hnc0 ih

/-- C4: after `recheck_hints` completes on a level whose grid is
well-formed and whose listed hints never sit on a `HexCell` slot (true
of every level the pipeline hands it: hints are attached on empty
slots, `remove_random_column_hint` only clears slots, and the move
loop writes hints only into empty slots, so even a hint left stale by
a removal has an empty slot, never a cell), every hint remaining in
the list has `consecutive = none` when its line holds at most one
Marked cell, and otherwise `'c'` exactly when the Marked cells occupy
consecutive indices of the ordered `HexCell` sequence of the line
(`'n'` otherwise); `consecRun` on the blue index list decides exactly
that contiguity. -/
theorem C4_recheck_consecutive (l : GeneratedLevel) (hw : l.grid.WF)
    (hnc0 : ∀ i : ℕ, ∀ h : ColumnHint,
      l.column_hints.get? i = some (some h) →
      ∀ c : HexCell, gridGet l.grid h.y h.x ≠ some (.cell c)) :
    (∀ h : ColumnHint, some h ∈ (recheck_hints l).column_hints →
      HintGood (recheck_hints l).grid h) ∧
    (∀ bi : List ℕ, consecRun bi = true ↔
      List.Chain' (fun a b => b = a + 1) bi) := by
  have h0 : RInv l.grid l.column_hints 0 ⟨l.grid, l.column_hints, []⟩ := by
    refine ⟨hw, fun y x c => Iff.rfl, rfl, fun i _ => rfl, ?_⟩
    intro v hbad
    show List.count (some v) l.column_hints
      ≤ List.count v [] + List.count (some v) (l.column_hints.drop 0)
    simp
  have hend := recheck_fold_inv hnc0 h0 l.column_hints.length
  obtain ⟨ewf, eceq, elen, eunch, ecnt⟩ := hend
  constructor
  · intro v hv
    have hgrid : (recheck_hints l).grid
        = ((List.range l.column_hints.length).foldl recheckStep
            ⟨l.grid, l.column_hints, []⟩).grid := rfl
    have hch : (recheck_hints l).column_hints
        = ((List.range l.column_hints.length).foldl recheckStep
            ⟨l.grid, l.column_hints, []⟩).toRemove.foldl
            (fun hs h => hs.erase (some h))
            ((List.range l.column_hints.length).foldl recheckStep
              ⟨l.grid, l.column_hints, []⟩).hints := rfl
    by_cases hgood : HintGood l.grid v
    · rw [hgrid]
      exact (HintGood_congr eceq v).mp hgood
    · exfalso
      have h1 := ecnt v hgood
      rw [List.drop_length, List.count_nil] at h1
      have h2 := count_fold_erase
        ((List.range l.column_hints.length).foldl recheckStep
          ⟨l.grid, l.column_hints, []⟩).toRemove
        ((List.range l.column_hints.length).foldl recheckStep
          ⟨l.grid, l.column_hints, []⟩).hints v
      have h3 : 0 < List.count (some v) ((recheck_hints l).column_hints) :=
        List.count_pos_iff.mpr hv
      rw [hch] at h3
      omega
  · exact consecRun_chain

theorem C4_witness :
    HintGood (recheck_hints c4Level).grid c4Hint ∧
    (consecRun [2, 3, 4] = true ↔
      List.Chain' (fun a b => b = a + 1) [2, 3, 4]) := by
  have hmain := C4_recheck_consecutive c4Level
    (by show c4Grid.WF
        unfold c4Grid
        exact gridSet_WF (gridSet_WF emptyGrid_WF _ _ _) _ _ _)
    (by intro i h hh
        cases i with
        | zero =>
          have hh2 : c4Hint = h := Option.some.inj (Option.some.inj hh)
          rw [← hh2]
          intro c hcon
          have he : gridGet c4Level.grid c4Hint.y c4Hint.x
              = some (.hint c4Hint) := by decide
          rw [he] at hcon
          exact Entity.noConfusion (Option.some.inj hcon)
        | succ n => exact Option.noConfusion hh)
  exact ⟨hmain.1 c4Hint (by decide), hmain.2 [2, 3, 4]⟩

/-- C1 counterexample: on the reachable stale state `c1Stale` (the
hint `c1H2` is listed while its grid slot is empty), one reverted
attempt of the `minimize_clues` loop body does not reproduce the
pre-attempt level: `restore_clue` writes `c1H2` back into the grid
although it was absent from it before the attempt. -/
theorem C1_counterexample :
    c1Stale.column_hints = [some c1H2] ∧
    gridGet c1Stale.grid c1H2.y c1H2.x = none ∧
    gridGet (attemptRemove (fun t => false) c1Stale (.column 0)).grid
      c1H2.y c1H2.x = some (.hint c1H2) ∧
    attemptRemove (fun t => false) c1Stale (.column 0) ≠ c1Stale := by
  refine ⟨by decide, by decide, by decide, ?_⟩
  intro he
  have h1 : gridGet (attemptRemove (fun t => false) c1Stale (.column 0)).grid
      c1H2.y c1H2.x = some (.hint c1H2) := by decide
  rw [he] at h1
  have h2 : gridGet c1Stale.grid c1H2.y c1H2.x = none := by decide
  rw [h2] at h1
  exact Option.noConfusion h1
